import Mathlib

/-!
Verification of the tabular data-quality analysis and cleaning engine in
`src/backend/server.js` (functions `analyzeCSVQuality`, `cleanCSVData`,
`detectDataType`, `percentile`, `detectOutliers`, `calculateSkewness`,
`calculateKurtosis`, `calculateCorrelation`, `validateDataPattern`,
`calculateDataQualityScore`).

Shallow embedding conventions:
* JavaScript numbers are modelled as exact rationals extended with the IEEE
  special values Infinity, -Infinity and NaN (`JSNum`).  Finite arithmetic is
  exact (no rounding); the special-value propagation rules of IEEE are kept.
  The model has a single unsigned zero; every place where the sign of a zero
  could matter is noted next to the definition it concerns.
* `parseFloat` is modelled as a longest-valid-prefix decimal parser
  (`jsParseFloat`), `Number(...)` coercion as a whole-string decimal parser
  (`jsNumber`).  Non-decimal numeric literals (hex, `Infinity`) are outside
  the model.
* The host function `Date.parse` / `new Date(...)` is external to the
  repository; the embedding takes it as a parameter (`Host.dateParse`),
  returning the timestamp together with the `YYYY-MM-DD` rendering that
  `toISOString().split('T')[0]` would produce, or `none` when the host would
  yield `NaN`.  Likewise `new URL(...)` validity is the parameter
  `Host.urlOk`.  Concrete evaluations instantiate the parameters with
  `host0`, which parses no string as a date; every concrete string used in
  such evaluations (for example "BAD EMAIL", "x", "01") is one that
  `Date.parse` rejects in Node as well.
* A table is a header list plus a list of rows; each row is the list of its
  cell strings in header order (the CSV parser guarantees that every row has
  exactly the header key set, in header order, so `JSON.stringify` equality
  of row objects coincides with cell-list equality).
-/

set_option allowUnsafeReducibility true

attribute [semireducible] Rat.add Rat.sub Rat.mul Rat.div Rat.inv Rat.neg

/-- Whitespace trim of both ends, on the character list (model of
`String.prototype.trim`, restricted to the whitespace characters Lean knows). -/
def jsTrim (s : String) : String :=
  String.mk (((s.data.dropWhile Char.isWhitespace).reverse.dropWhile Char.isWhitespace).reverse)

/-- Character-wise lowercasing (model of `String.prototype.toLowerCase` on
the ASCII range). -/
def jsToLower (s : String) : String :=
  String.mk (s.data.map Char.toLower)

/-- Test whether the pattern occurs at the head of the character list. -/
def headMatches : List Char → List Char → Bool
  | [], _ => true
  | _ :: _, [] => false
  | p :: ps, c :: cs => p = c && headMatches ps cs

/-- Occurrence test of a pattern anywhere in a character list. -/
def containsSeq (pat : List Char) : List Char → Bool
  | [] => pat.isEmpty
  | c :: cs => headMatches pat (c :: cs) || containsSeq pat cs

/-- JavaScript number: exact rational, or one of the IEEE special values. -/
inductive JSNum where
  | num (q : ℚ)
  | inf
  | negInf
  | nan
deriving DecidableEq, Repr

namespace JSNum

/-- Negation of a JS number. -/
def neg : JSNum → JSNum
  | num q => num (-q)
  | inf => negInf
  | negInf => inf
  | nan => nan

/-- Addition with IEEE special-value rules. -/
def add : JSNum → JSNum → JSNum
  | nan, _ => nan
  | _, nan => nan
  | inf, negInf => nan
  | negInf, inf => nan
  | inf, _ => inf
  | _, inf => inf
  | negInf, _ => negInf
  | _, negInf => negInf
  | num a, num b => num (a + b)

/-- Subtraction via addition of the negation. -/
def sub (a b : JSNum) : JSNum := add a (neg b)

/-- Multiplication with IEEE special-value rules (Infinity times zero is NaN). -/
def mul : JSNum → JSNum → JSNum
  | nan, _ => nan
  | _, nan => nan
  | inf, inf => inf
  | inf, negInf => negInf
  | negInf, inf => negInf
  | negInf, negInf => inf
  | inf, num q => if q > 0 then inf else if q < 0 then negInf else nan
  | num q, inf => if q > 0 then inf else if q < 0 then negInf else nan
  | negInf, num q => if q > 0 then negInf else if q < 0 then inf else nan
  | num q, negInf => if q > 0 then negInf else if q < 0 then inf else nan
  | num a, num b => num (a * b)

/-- Division.  Division of a nonzero finite number by zero yields a signed
infinity (the model has an unsigned zero, so the sign is taken from the
numerator alone); zero divided by zero is NaN. -/
def div : JSNum → JSNum → JSNum
  | nan, _ => nan
  | _, nan => nan
  | inf, inf => nan
  | inf, negInf => nan
  | negInf, inf => nan
  | negInf, negInf => nan
  | inf, num q => if q < 0 then negInf else inf
  | negInf, num q => if q < 0 then inf else negInf
  | num _, inf => num 0
  | num _, negInf => num 0
  | num a, num b =>
      if b = 0 then (if a = 0 then nan else if a > 0 then inf else negInf)
      else num (a / b)

/-- Math.round: round half towards positive infinity on the finite part. -/
def round : JSNum → JSNum
  | num q => num (⌊q + 1/2⌋ : ℤ)
  | inf => inf
  | negInf => negInf
  | nan => nan

end JSNum

/-- Digits of a decimal literal read into a natural number. -/
def digitsToNat (ds : List Char) : ℕ :=
  ds.foldl (fun a c => a * 10 + (c.toNat - 48)) 0

/-- Core of the JS decimal parser: optional sign, integer digits, optional
fraction, optional exponent (the exponent is consumed only when at least one
exponent digit follows, as in `parseFloat`).  Returns the parsed value and
the unconsumed remainder, or `none` when no digit was consumed. -/
def jsParseCore (cs : List Char) : Option (ℚ × List Char) :=
  let (sgn, cs1) : ℚ × List Char :=
    match cs with
    | '+' :: t => (1, t)
    | '-' :: t => (-1, t)
    | t => (1, t)
  let intDs := cs1.takeWhile Char.isDigit
  let cs2 := cs1.dropWhile Char.isDigit
  let (fracDs, cs3) : List Char × List Char :=
    match cs2 with
    | '.' :: t => (t.takeWhile Char.isDigit, t.dropWhile Char.isDigit)
    | t => ([], t)
  if intDs.isEmpty && fracDs.isEmpty then none
  else
    let mant : ℚ :=
      sgn * ((digitsToNat intDs : ℚ) + (digitsToNat fracDs : ℚ) / (10 ^ fracDs.length))
    match cs3 with
    | e :: t =>
      if e = 'e' ∨ e = 'E' then
        let (esgn, t1) : ℤ × List Char :=
          match t with
          | '+' :: u => (1, u)
          | '-' :: u => (-1, u)
          | u => (1, u)
        let eds := t1.takeWhile Char.isDigit
        if eds.isEmpty then some (mant, cs3)
        else some (mant * (10 : ℚ) ^ (esgn * (digitsToNat eds : ℤ)), t1.dropWhile Char.isDigit)
      else some (mant, cs3)
    | [] => some (mant, [])

/-- Model of `parseFloat`: skip leading whitespace, parse the longest valid
decimal prefix, ignore the rest; `none` stands for NaN. -/
def jsParseFloat (s : String) : Option ℚ :=
  match jsParseCore (s.data.dropWhile Char.isWhitespace) with
  | some (q, _) => some q
  | none => none

/-- Model of `Number(...)` coercion as used by the global `isNaN`: trim, the
empty string is 0, otherwise the whole string must be a decimal literal;
`none` stands for NaN. -/
def jsNumber (s : String) : Option ℚ :=
  let t := jsTrim s
  if t = "" then some 0
  else
    match jsParseCore t.data with
    | some (q, []) => some q
    | _ => none

/-- Multiplicity of the prime `p` in `n`, fuel-bounded recursion. -/
def factorCountAux (p : ℕ) : ℕ → ℕ → ℕ
  | 0, _ => 0
  | fuel + 1, n => if 1 < p ∧ 0 < n ∧ n % p = 0 then 1 + factorCountAux p fuel (n / p) else 0

/-- Multiplicity of the prime `p` in `n`. -/
def factorCount (p n : ℕ) : ℕ := factorCountAux p n n

/-- Drop trailing zero characters. -/
def trimRightZeros (s : String) : String :=
  String.mk ((s.data.reverse.dropWhile (· = '0')).reverse)

/-- Pad a digit string on the left with zeros to length `k`. -/
def padLeftZeros (k : ℕ) (s : String) : String :=
  String.mk (List.replicate (k - s.length) '0') ++ s

/-- Model of `Number.prototype.toString` on the reachable values: integers
print as decimal integers, rationals whose denominator divides a power of ten
print as their exact terminating decimal without trailing zeros.  Every
number the cleaning pipeline converts to a string arises from decimal
literals by interpolation with dyadic weights, so its denominator is of the
form 2^a*5^b and the terminating case applies; the fallback branch (floor
division) is unreachable from the pipeline. -/
def qToString (q : ℚ) : String :=
  if q.den = 1 then toString q.num
  else
    let k := max (factorCount 2 q.den) (factorCount 5 q.den)
    let scaledAbs : ℕ := (q.num.natAbs * 10 ^ k) / q.den
    let ip := scaledAbs / 10 ^ k
    let fp := scaledAbs % 10 ^ k
    let fpStr := trimRightZeros (padLeftZeros k (toString fp))
    (if q.num < 0 then "-" else "") ++ toString ip ++
      (if fpStr = "" then "" else "." ++ fpStr)

/-- Model of `Number.prototype.toFixed k`: round half towards positive
infinity to `k` decimal places and print with exactly `k` fraction digits. -/
def qToFixed (k : ℕ) (q : ℚ) : String :=
  let n : ℤ := ⌊q * 10 ^ k + 1/2⌋
  let ip := n.natAbs / 10 ^ k
  let fp := n.natAbs % 10 ^ k
  (if q < 0 then "-" else "") ++ toString ip ++
    (if k = 0 then "" else "." ++ padLeftZeros k (toString fp))

/-- Missing-value sentinel of the engine:
`!row[column] || row[column].trim() === '' || row[column].toLowerCase() === 'null'`
(an absent key reads as the empty string, which the first disjunct catches). -/
def isMissing (s : String) : Bool :=
  jsTrim s = "" || jsToLower s = "null"

/-- Substring test, modelling `String.prototype.includes`. -/
def containsSub (s pat : String) : Bool :=
  containsSeq pat.data s.data

/-- Host-environment functions the engine calls but the repository does not
define.  `dateParse s` is `some (ts, iso)` when `Date.parse s` yields the
timestamp `ts` (in ms) and `new Date(s).toISOString().split('T')[0]` yields
`iso`; it is `none` when the host would yield NaN.  `urlOk s` is whether
`new URL(s)` succeeds. -/
structure Host where
  dateParse : String → Option (ℤ × String)
  urlOk : String → Bool

/-- Host instance used for concrete evaluations: no string parses as a date
and no string is a valid URL.  Every string fed to it in this file is one on
which Node behaves the same way. -/
def host0 : Host := ⟨fun _ => none, fun _ => false⟩

/-- Truthiness of `Date.parse s`: the parse succeeded and the timestamp is
not zero (the epoch timestamp 0 is falsy in JS). -/
def dateTruthy (H : Host) (s : String) : Bool :=
  match H.dateParse s with
  | some (ts, _) => ts ≠ 0
  | none => false

/-- Column kind as the string constants of the source compare it: the four
values `detectDataType` can return, plus the constants that appear in
comparisons (`mixed` in `analyzeCSVQuality`) or in the `validateDataPattern`
switch (`email`, `phone`, `url`). -/
inductive PatternKey where
  | numeric
  | date
  | categorical
  | unknown
  | mixed
  | email
  | phone
  | url
deriving DecidableEq, Repr

/-- Model of `detectDataType(values)`: empty input is `unknown`; a fraction
of float-parseable values above 0.8 gives `numeric`; else a fraction of
date-parseable values above 0.8 gives `date`; else `categorical`.  The
fractions are exact rationals. -/
def detectDataType (H : Host) (values : List String) : PatternKey :=
  if values.isEmpty then .unknown
  else
    let nonEmptyValues := values.filter (fun v => v ≠ "")
    if nonEmptyValues.isEmpty then .unknown
    else
      let numericCount := nonEmptyValues.countP (fun v => (jsParseFloat v).isSome)
      let numericFrac : ℚ := (numericCount : ℚ) / (nonEmptyValues.length : ℚ)
      if numericFrac > 8/10 then .numeric
      else
        let dateCount := nonEmptyValues.countP (fun v => (H.dateParse v).isSome)
        let dateFrac : ℚ := (dateCount : ℚ) / (nonEmptyValues.length : ℚ)
        if dateFrac > 8/10 then .date
        else .categorical

/-- Match of the RFC-lite email regular expression
`^[^\s@]+@[^\s@]+\.[^\s@]+$`: exactly one `@`, a nonempty whitespace-free
local part, and a domain part containing a dot with at least one character on
each side, all free of whitespace. -/
def emailOk (s : String) : Bool :=
  let a := s.data.takeWhile (fun c => c ≠ '@')
  let rest := s.data.dropWhile (fun c => c ≠ '@')
  match rest with
  | '@' :: b =>
      a ≠ [] && a.all (fun c => ¬ c.isWhitespace) &&
      b ≠ [] && b.all (fun c => ¬ c.isWhitespace && c ≠ '@') &&
      ((b.take (b.length - 1)).drop 1).contains '.'
  | _ => false

/-- Characters removed by the phone normalisation `replace(/[\s\-\(\)]/g, '')`. -/
def isPhoneStripChar (c : Char) : Bool :=
  c.isWhitespace || c = '-' || c = '(' || c = ')'

/-- Match of the phone pattern `^[\+]?[1-9][\d]{0,15}$` applied to the value
with whitespace, hyphens and parentheses removed. -/
def phoneOk (s : String) : Bool :=
  let cs := s.data.filter (fun c => ¬ isPhoneStripChar c)
  let ds := match cs with
    | '+' :: t => t
    | t => t
  match ds with
  | d :: rest => d.isDigit && d ≠ '0' && rest.all Char.isDigit && rest.length ≤ 15
  | [] => false

/-- Model of `validateDataPattern(values, dataType)`: count the values that
fail the check selected by the data-type string.  The `email`, `phone` and
`url` branches exist in the source but no call site can select them, because
the argument always comes from `detectDataType`. -/
def validateDataPattern (H : Host) (values : List String) (dataType : PatternKey) : ℕ :=
  match dataType with
  | .email => values.countP (fun v => ¬ emailOk v)
  | .phone => values.countP (fun v => ¬ phoneOk v)
  | .date => values.countP (fun v => (H.dateParse v).isNone)
  | .numeric => values.countP (fun v => (jsParseFloat v).isNone)
  | .url => values.countP (fun v => ¬ H.urlOk v)
  | _ => 0

/-- Array read at a signed index, with 0 for the out-of-range reads that the
guarded call sites never perform (JS would read `undefined`). -/
def jsIdx (l : List ℚ) (i : ℤ) : ℚ :=
  if i < 0 then 0 else l.getD i.toNat 0

/-- Model of the `percentile(sortedArray, p)` function that is in effect at
run time (the second of the two declarations named `percentile` in the
source; in JavaScript the later function declaration shadows the earlier
one).  It interpolates positionally and does NOT sort its argument. -/
def percentile (sortedArray : List ℚ) (p : ℚ) : ℚ :=
  let index : ℚ := p / 100 * ((sortedArray.length : ℚ) - 1)
  if (⌊index⌋ : ℚ) = index then jsIdx sortedArray ⌊index⌋
  else
    let lower := jsIdx sortedArray ⌊index⌋
    let upper := jsIdx sortedArray ⌈index⌉
    lower + (upper - lower) * (index - ⌊index⌋)

/-- Model of the first, shadowed `percentile(arr, p)` declaration of the
source, which sorts its input before interpolating; this is the
linear-interpolation percentile the specification describes. -/
def specPercentile (arr : List ℚ) (p : ℚ) : ℚ :=
  let sorted := arr.insertionSort (fun a b => a ≤ b)
  let index : ℚ := p / 100 * ((sorted.length : ℚ) - 1)
  let weight := index - ⌊index⌋
  if ⌈index⌉ ≥ (sorted.length : ℤ) then jsIdx sorted ((sorted.length : ℤ) - 1)
  else jsIdx sorted ⌊index⌋ * (1 - weight) + jsIdx sorted ⌈index⌉ * weight

/-- Model of `detectOutliers(values)`: IQR fences from the run-time
`percentile` (which does not sort) applied to `values` as given. -/
def detectOutliers (values : List ℚ) : List ℚ :=
  let Q1 := percentile values 25
  let Q3 := percentile values 75
  let IQR := Q3 - Q1
  let lowerBound := Q1 - 3/2 * IQR
  let upperBound := Q3 + 3/2 * IQR
  values.filter (fun v => v < lowerBound || v > upperBound)

/-- Median as computed inline by the imputation step: average the two middle
elements of the sorted list when the length is even, else take the middle
element.  The call site guarantees a nonempty list. -/
def jsMedian (sorted : List ℚ) : ℚ :=
  if sorted.length % 2 = 0 then
    (sorted.getD (sorted.length / 2 - 1) 0 + sorted.getD (sorted.length / 2) 0) / 2
  else sorted.getD (sorted.length / 2) 0

/-- First occurrences of a list, keyed by equality: the order-preserving
deduplication performed by `_.uniqBy(rows, JSON.stringify)`. -/
def uniqFirstAux {α : Type} [DecidableEq α] (seen : List α) : List α → List α
  | [] => []
  | r :: rs => if r ∈ seen then uniqFirstAux seen rs else r :: uniqFirstAux (r :: seen) rs

/-- First-occurrence deduplication. -/
def uniqFirst {α : Type} [DecidableEq α] (l : List α) : List α := uniqFirstAux [] l

/-- Positions of the first occurrences, in ascending order; these are the
rows of the original array that survive deduplication (and keep being
reachable — hence mutable — through the original array). -/
def keptIdxAux {α : Type} [DecidableEq α] (seen : List α) (i : ℕ) : List α → List ℕ
  | [] => []
  | r :: rs => if r ∈ seen then keptIdxAux seen (i + 1) rs else i :: keptIdxAux (r :: seen) (i + 1) rs

/-- Positions of the first occurrences of the rows of `l`. -/
def keptIdx {α : Type} [DecidableEq α] (l : List α) : List ℕ := keptIdxAux [] 0 l

/-- Overlay the final values `fs` of the kept rows (at ascending original
positions `ks`) on the original rows: the view of the caller-held input array
after the call, since the cleaning pipeline mutates the shared row objects of
the kept rows in place and never touches the dropped duplicates. -/
def patchAux {α : Type} : ℕ → List ℕ → List α → List α → List α
  | _, _, _, [] => []
  | i, [], fs, r :: rs => r :: patchAux (i + 1) [] fs rs
  | i, k :: ks1, [], r :: rs => r :: patchAux (i + 1) (k :: ks1) [] rs
  | i, k :: ks1, f :: fs1, r :: rs =>
      if i = k then f :: patchAux (i + 1) ks1 fs1 rs
      else r :: patchAux (i + 1) (k :: ks1) (f :: fs1) rs

/-- Canonical array-index test of the ECMAScript property-order rule: a
string is an array index when it is the canonical decimal form of an integer
below 2^32 - 1. -/
def isArrayIndexKey (s : String) : Bool :=
  s.data ≠ [] && s.data.all Char.isDigit &&
    Nat.repr (digitsToNat s.data) = s && digitsToNat s.data < 2 ^ 32 - 1

/-- Key-value pairs of `_.toPairs(_.countBy(values))`: JavaScript objects
enumerate canonical array-index keys first in ascending numeric order, then
the remaining string keys in insertion (first-encounter) order. -/
def jsCountByPairs (values : List String) : List (String × ℕ) :=
  let keys := uniqFirst values
  let idxKeys := (keys.filter isArrayIndexKey).insertionSort
    (fun a b => digitsToNat a.data ≤ digitsToNat b.data)
  let strKeys := keys.filter (fun k => ¬ isArrayIndexKey k)
  (idxKeys ++ strKeys).map (fun k => (k, values.count k))

/-- Model of `_.maxBy(pairs, 1)`: the first pair whose second component is
strictly greater than every later one (lodash keeps the current maximum on
ties). -/
def jsMaxBySnd : List (String × ℕ) → Option (String × ℕ)
  | [] => none
  | p :: ps =>
    match jsMaxBySnd ps with
    | none => some p
    | some q => if q.2 > p.2 then some q else some p

/-- Arithmetic mean of a list of rationals (call sites guarantee nonempty). -/
def meanOf (values : List ℚ) : ℚ := values.sum / (values.length : ℚ)

/-- Population variance as computed inside `calculateStandardDeviation`
(divide by n); the standard deviation itself is the square root of this, an
irrational number in general, so theorems characterise it by its square. -/
def varianceOf (values : List ℚ) : ℚ :=
  ((values.map (fun v => (v - meanOf values) ^ 2)).sum) / (values.length : ℚ)

/-- Model of `calculateSkewness(values, mean, std)`: guard only `std === 0`,
then `(n / ((n-1)(n-2))) * sum(((x-mean)/std)^3)` in JS arithmetic.  For
`n = 2` the factor is a division by zero. -/
def calculateSkewness (values : List ℚ) (mean std : ℚ) : JSNum :=
  if std = 0 then .num 0
  else
    let n : ℚ := values.length
    let sum : ℚ := (values.map (fun v => ((v - mean) / std) ^ 3)).sum
    JSNum.mul (JSNum.div (.num n) (.num ((n - 1) * (n - 2)))) (.num sum)

/-- Model of `calculateKurtosis(values, mean, std)`: guard only `std === 0`,
then the adjusted excess-kurtosis formula in JS arithmetic.  For `n = 2` and
`n = 3` the denominators are zero. -/
def calculateKurtosis (values : List ℚ) (mean std : ℚ) : JSNum :=
  if std = 0 then .num 0
  else
    let n : ℚ := values.length
    let sum : ℚ := (values.map (fun v => ((v - mean) / std) ^ 4)).sum
    JSNum.sub
      (JSNum.mul (JSNum.div (.num (n * (n + 1))) (.num ((n - 1) * (n - 2) * (n - 3)))) (.num sum))
      (JSNum.div (.num (3 * (n - 1) ^ 2)) (.num ((n - 2) * (n - 3))))

/-- Table: ordered header names and rows of cell strings in header order. -/
structure Table where
  headers : List String
  rows : List (List String)
deriving DecidableEq, Repr

/-- Cell of a row at column index `j`; an absent cell reads as the empty
string, which is falsy like the `undefined` JS would read. -/
def cellAt (r : List String) (j : ℕ) : String := r.getD j ""

/-- Column `j` of a row list. -/
def colVals (rows : List (List String)) (j : ℕ) : List String :=
  rows.map (fun r => cellAt r j)

/-- Headers as `cleanCSVData` derives them: `Object.keys(results[0] || {})`,
the key set of the first row, which the CSV parser makes equal to the header
list whenever a row exists. -/
def headersOf (t : Table) : List String :=
  match t.rows with
  | [] => []
  | _ => t.headers

/-- Pairs of parsed values of columns `i` and `j` over the rows where both
cells parse as numbers: the pairwise-complete observations of
`calculateCorrelation`. -/
def corrPairs (t : Table) (i j : ℕ) : List (ℚ × ℚ) :=
  t.rows.filterMap (fun r =>
    match jsParseFloat (cellAt r i), jsParseFloat (cellAt r j) with
    | some a, some b => some (a, b)
    | _, _ => none)

/-- Numerator sum `Σ (x - mean1)(y - mean2)` of the Pearson coefficient. -/
def corrNum (pairs : List (ℚ × ℚ)) : ℚ :=
  let m1 := meanOf (pairs.map Prod.fst)
  let m2 := meanOf (pairs.map Prod.snd)
  (pairs.map (fun p => (p.1 - m1) * (p.2 - m2))).sum

/-- Sum of squares `Σ (x - mean1)^2`. -/
def corrSum1 (pairs : List (ℚ × ℚ)) : ℚ :=
  let m1 := meanOf (pairs.map Prod.fst)
  (pairs.map (fun p => (p.1 - m1) ^ 2)).sum

/-- Sum of squares `Σ (y - mean2)^2`. -/
def corrSum2 (pairs : List (ℚ × ℚ)) : ℚ :=
  let m2 := meanOf (pairs.map Prod.snd)
  (pairs.map (fun p => (p.2 - m2) ^ 2)).sum

/-- Model of `calculateCorrelation(data, col1, col2)`: 0 when fewer than two
valid pairs; else `numerator / Math.sqrt(sum1 * sum2)`, with 0 when the
denominator is 0.  The square root forces the exact model into the reals. -/
noncomputable def calculateCorrelation (t : Table) (i j : ℕ) : ℝ :=
  let pairs := corrPairs t i j
  if pairs.length < 2 then 0
  else
    let denominator : ℝ := Real.sqrt ((corrSum1 pairs : ℝ) * (corrSum2 pairs : ℝ))
    if denominator = 0 then 0 else (corrNum pairs : ℝ) / denominator

/-- Non-missing values of a column as the imputation and analysis passes
filter them: `filter(val => val && val.trim() !== '')`.  Note that the
literal token "null" survives this filter even though the missing-value test
treats it as missing. -/
def trimNonempty (col : List String) : List String :=
  col.filter (fun s => s ≠ "" && jsTrim s ≠ "")

/-- Fill value the imputation step would write into the missing cells of a
column: the median string for a numerically typed column, the
`countBy`/`maxBy` mode for a categorical column, nothing otherwise. -/
def imputeFill (H : Host) (col : List String) : Option String :=
  match detectDataType H (trimNonempty col) with
  | .numeric =>
      some (qToString (jsMedian ((col.filterMap jsParseFloat).insertionSort (fun a b => a ≤ b))))
  | .categorical => (jsMaxBySnd (jsCountByPairs (trimNonempty col))).map Prod.fst
  | _ => none

/-- Column values after the imputation step. -/
def imputeColVals (H : Host) (col : List String) : List String :=
  match imputeFill H col with
  | some m => col.map (fun s => if isMissing s then m else s)
  | none => col

/-- Imputation of one column (state update of step 2): when a fill value
exists, write it into every missing cell and add the number of missing cells
to the `valuesImputed` counter. -/
def step2Col (H : Host) (acc : List (List String) × ℕ) (j : ℕ) : List (List String) × ℕ :=
  match imputeFill H (colVals acc.1 j) with
  | some m =>
      (acc.1.map (fun r => if isMissing (cellAt r j) then r.set j m else r),
       acc.2 + (colVals acc.1 j).countP isMissing)
  | none => (acc.1, acc.2)

/-- Step 2 of `cleanCSVData` (handle missing values), columns processed in
header order; returns the rows and the number of `valuesImputed` increments. -/
def step2 (H : Host) (headers : List String) (rows : List (List String)) :
    List (List String) × ℕ :=
  (List.range headers.length).foldl (step2Col H) (rows, 0)

/-- Step 3 of `cleanCSVData` (standardize text): trim and lowercase every
truthy cell of each column whose type, detected over the raw column, is
categorical.  No counter tracks these changes in the source. -/
def step3 (H : Host) (headers : List String) (rows : List (List String)) :
    List (List String) :=
  (List.range headers.length).foldl
    (fun cur j =>
      if detectDataType H (colVals cur j) = .categorical then
        cur.map (fun r =>
          let s := cellAt r j
          if s ≠ "" then r.set j (jsToLower (jsTrim s)) else r)
      else cur)
    rows

/-- Clamp of one cell by the IQR fences, as the capping loop performs it. -/
def capCell (lowerBound upperBound : ℚ) (s : String) : String :=
  match jsParseFloat s with
  | some v =>
      if v < lowerBound then qToString lowerBound
      else if v > upperBound then qToString upperBound
      else s
  | none => s

/-- Step 4 of `cleanCSVData` (handle outliers): per column, when the
unsorted-percentile outlier detector fires, clamp every parseable cell to the
IQR fences computed by the run-time `percentile` on the column in row order. -/
def step4 (headers : List String) (rows : List (List String)) :
    List (List String) × ℕ :=
  (List.range headers.length).foldl
    (fun acc j =>
      let numericValues := (colVals acc.1 j).filterMap jsParseFloat
      if numericValues.length > 0 ∧ detectOutliers numericValues ≠ [] then
        let Q1 := percentile numericValues 25
        let Q3 := percentile numericValues 75
        let IQR := Q3 - Q1
        let lowerBound := Q1 - 3/2 * IQR
        let upperBound := Q3 + 3/2 * IQR
        (acc.1.map (fun r => r.set j (capCell lowerBound upperBound (cellAt r j))),
         acc.2 + (colVals acc.1 j).countP (fun s =>
           match jsParseFloat s with
           | some v => v < lowerBound || v > upperBound
           | none => false))
      else acc)
    (rows, 0)

/-- Minimum of a nonempty list (`Math.min(...values)`). -/
def listMin (l : List ℚ) : ℚ :=
  match l with
  | [] => 0
  | x :: xs => xs.foldl min x

/-- Maximum of a nonempty list (`Math.max(...values)`). -/
def listMax (l : List ℚ) : ℚ :=
  match l with
  | [] => 0
  | x :: xs => xs.foldl max x

/-- Step 5 of `cleanCSVData` (optional min-max normalisation, on by the
`normalizeNumeric` option): rewrite every parseable cell to
`((v - min) / range).toFixed(4)` when the range is positive. -/
def step5 (normalizeNumeric : Bool) (headers : List String) (rows : List (List String)) :
    List (List String) :=
  if ¬ normalizeNumeric then rows
  else
    (List.range headers.length).foldl
      (fun cur j =>
        let numericValues := (colVals cur j).filterMap jsParseFloat
        if numericValues.length > 0 then
          let mn := listMin numericValues
          let mx := listMax numericValues
          let range := mx - mn
          if range > 0 then
            cur.map (fun r =>
              match jsParseFloat (cellAt r j) with
              | some v => r.set j (qToFixed 4 ((v - mn) / range))
              | none => r)
          else cur
        else cur)
      rows

/-- Date or time hint taken from a column name. -/
def hasDateHint (c : String) : Bool :=
  containsSub (jsToLower c) "date" || containsSub (jsToLower c) "time"

/-- Step 6 transformation of one cell: canonical ISO day for parseable values
of date-hinted columns; canonical decimal form for `Number`-parseable
values (integers stay integral, others get two decimals); boolean tokens to
"true"/"false".  The second component is the `typeConversions` increment,
which counts processed cells even when the rewritten text is unchanged. -/
def step6Cell (H : Host) (dateHint : Bool) (s : String) : String × ℕ :=
  if s = "" then (s, 0)
  else
    let value := jsTrim s
    if dateHint then
      match H.dateParse value with
      | some (_, iso) => (iso, 1)
      | none => (s, 0)
    else if (jsNumber value).isSome && value ≠ "" then
      let numValue := (jsParseFloat value).getD 0
      if numValue.den = 1 then (qToString numValue, 1) else (qToFixed 2 numValue, 1)
    else if ["true", "false", "yes", "no", "1", "0"].contains (jsToLower value) then
      (if ["true", "yes", "1"].contains (jsToLower value) then "true" else "false", 1)
    else (s, 0)

/-- Step 6 of `cleanCSVData` (data type validation and conversion). -/
def step6 (H : Host) (headers : List String) (rows : List (List String)) :
    List (List String) × ℕ :=
  (List.range headers.length).foldl
    (fun acc j =>
      let hint := hasDateHint (headers.getD j "")
      ((acc.1.map (fun r => r.set j (step6Cell H hint (cellAt r j)).1)),
       acc.2 + ((colVals acc.1 j).map (fun s => (step6Cell H hint s).2)).sum))
    (rows, 0)

/-- Word character of the regex class `\w`. -/
def isWordChar (c : Char) : Bool := c.isAlphanum || c = '_'

/-- Removal of special characters: `replace(/[^\w\s\-.,]/g, '')`. -/
def stripSpecial (s : String) : String :=
  String.mk (s.data.filter (fun c =>
    isWordChar c || c.isWhitespace || c = '-' || c = '.' || c = ','))

/-- Phone cleanup `replace(/[^\d+\-()]/g, '')`. -/
def phoneStrip (s : String) : String :=
  String.mk (s.data.filter (fun c =>
    c.isDigit || c = '+' || c = '-' || c = '(' || c = ')'))

/-- Step 7 transformation of one cell: strip special characters from values
that are neither numeric nor date-truthy (writing only on change), then
unconditionally lowercase in email-hinted columns (from the original value,
undoing a previous strip), then strip phone characters in phone-hinted
columns (from the original value, writing only on change).  The second
component is the `validationIssues` increment: the email write counts even
when the text is unchanged. -/
def step7Cell (H : Host) (emailHint phoneHint : Bool) (s : String) : String × ℕ :=
  if s = "" then (s, 0)
  else
    let value := s
    let r1 : String × ℕ :=
      if (jsParseFloat value).isNone && ¬ dateTruthy H value then
        let cleaned := jsTrim (stripSpecial value)
        if cleaned ≠ value then (cleaned, 1) else (value, 0)
      else (value, 0)
    let r2 : String × ℕ := if emailHint then (jsToLower value, 1) else (r1.1, 0)
    let r3 : String × ℕ :=
      if phoneHint then
        let phoneClean := phoneStrip value
        if phoneClean ≠ value then (phoneClean, 1) else (r2.1, 0)
      else (r2.1, 0)
    (r3.1, r1.2 + r2.2 + r3.2)

/-- Step 7 of `cleanCSVData` (data validation and quality checks). -/
def step7 (H : Host) (headers : List String) (rows : List (List String)) :
    List (List String) × ℕ :=
  (List.range headers.length).foldl
    (fun acc j =>
      let name := jsToLower (headers.getD j "")
      let emailHint := containsSub name "email"
      let phoneHint := containsSub name "phone"
      ((acc.1.map (fun r => r.set j (step7Cell H emailHint phoneHint (cellAt r j)).1)),
       acc.2 + ((colVals acc.1 j).map (fun s => (step7Cell H emailHint phoneHint s).2)).sum))
    (rows, 0)

/-- Report sentence of the dedup step. -/
def dedupMsg (n : ℕ) : String := "Removed " ++ toString n ++ " duplicate rows"

/-- Report sentence of the imputation step. -/
def imputeMsg (n : ℕ) : String := "Imputed " ++ toString n ++ " missing values"

/-- Report sentence of the text-standardisation step, pushed unconditionally. -/
def textMsg : String := "Standardized text format to lowercase"

/-- Report sentence of the outlier-capping step. -/
def outlierMsg (n : ℕ) : String := "Treated " ++ toString n ++ " outliers using IQR capping"

/-- Report sentence of the type-conversion step. -/
def convMsg (n : ℕ) : String := "Converted " ++ toString n ++ " values to appropriate data types"

/-- Report sentence of the validation step. -/
def validMsg (n : ℕ) : String := "Fixed " ++ toString n ++ " data validation issues"

/-- Final completion sentence, pushed unconditionally (the leading characters
reproduce the mojibake bytes of the source file as Node reads them). -/
def doneMsg : String := "âœ… Comprehensive data processing completed"

/-- Model of `calculateDataQualityScore(data, headers)`: 0 on empty data,
else the rounded mean of the completeness of the cleaned table and the three
fixed baselines 85, 90, 95.  With data but no columns the completeness is
0/0, hence NaN. -/
def calculateDataQualityScore (data : List (List String)) (headers : List String) : JSNum :=
  if data.isEmpty then .num 0
  else
    let totalCells : ℚ := (data.length : ℚ) * (headers.length : ℚ)
    let filledCells : ℚ :=
      (((List.range headers.length).map (fun j =>
        (colVals data j).countP (fun s => s ≠ "" && jsTrim s ≠ ""))).sum : ℕ)
    let completenessScore := JSNum.mul (JSNum.div (.num filledCells) (.num totalCells)) (.num 100)
    JSNum.round (JSNum.div
      (JSNum.add (JSNum.add (JSNum.add completenessScore (.num 85)) (.num 90)) (.num 95))
      (.num 4))

/-- Output of `cleanCSVData`: cleaned rows, counters, report sentences. -/
structure CleanOutput where
  headers : List String
  data : List (List String)
  duplicatesRemoved : ℕ
  valuesImputed : ℕ
  outliersTreated : ℕ
  typeConversions : ℕ
  validationIssues : ℕ
  stepsApplied : List String
  finalQualityScore : JSNum
deriving DecidableEq, Repr

/-- Model of `cleanCSVData(filePath, options)` on the parsed table: the
seven-step pipeline.  `normalizeNumeric` is the one recognised option. -/
def cleanCSVData (H : Host) (normalizeNumeric : Bool) (t : Table) : CleanOutput :=
  let headers := headersOf t
  let d1 := uniqFirst t.rows
  let dup := t.rows.length - d1.length
  let s2 := step2 H headers d1
  let d3 := step3 H headers s2.1
  let s4 := step4 headers d3
  let d5 := step5 normalizeNumeric headers s4.1
  let s6 := step6 H headers d5
  let s7 := step7 H headers s6.1
  { headers := headers
    data := s7.1
    duplicatesRemoved := dup
    valuesImputed := s2.2
    outliersTreated := s4.2
    typeConversions := s6.2
    validationIssues := s7.2
    stepsApplied :=
      (if dup > 0 then [dedupMsg dup] else []) ++
      (if s2.2 > 0 then [imputeMsg s2.2] else []) ++
      [textMsg] ++
      (if s4.2 > 0 then [outlierMsg s4.2] else []) ++
      (if s6.2 > 0 then [convMsg s6.2] else []) ++
      (if s7.2 > 0 then [validMsg s7.2] else []) ++
      [doneMsg]
    finalQualityScore := calculateDataQualityScore s7.1 headers }

/-- Rows right after the text-standardisation step (before capping). -/
def afterStep3 (H : Host) (t : Table) : List (List String) :=
  step3 H (headersOf t) (step2 H (headersOf t) (uniqFirst t.rows)).1

/-- Rows right after the outlier-capping step. -/
def afterStep4 (H : Host) (t : Table) : List (List String) :=
  (step4 (headersOf t) (afterStep3 H t)).1

/-- View of the row array the caller passed in, after `cleanCSVData`
returned: the pipeline copies only the array (`[...results]`), so the row
objects that survive deduplication are shared and mutated in place, while the
dropped duplicates keep their original cells. -/
def inputAfterClean (H : Host) (normalizeNumeric : Bool) (t : Table) : List (List String) :=
  patchAux 0 (keptIdx t.rows) (cleanCSVData H normalizeNumeric t).data t.rows

/-- Quality metrics of the analysis report, before the `toFixed(2)`
formatting of the serialisation boundary. -/
structure QualityMetricsR where
  completeness : JSNum
  consistency : JSNum
  accuracy : JSNum
  validity : JSNum
  uniqueness : JSNum
  overallScore : JSNum
deriving DecidableEq, Repr

/-- Embedded fields of the analysis object built by `analyzeCSVQuality`. -/
structure AnalysisReport where
  totalRows : ℕ
  totalColumns : ℕ
  missingCounts : List (String × ℕ)
  duplicates : ℕ
  dataTypes : List (String × PatternKey)
  qualityMetrics : QualityMetricsR
deriving DecidableEq, Repr

/-- Initial analysis object; it is returned unchanged when the table has no
rows. -/
def emptyAnalysis : AnalysisReport :=
  { totalRows := 0
    totalColumns := 0
    missingCounts := []
    duplicates := 0
    dataTypes := []
    qualityMetrics :=
      { completeness := .num 0
        consistency := .num 0
        accuracy := .num 0
        validity := .num 0
        uniqueness := .num 0
        overallScore := .num 0 } }

/-- Non-missing values of column `j` as the analysis pass filters them. -/
def analysisColVals (t : Table) (j : ℕ) : List String :=
  trimNonempty (colVals t.rows j)

/-- Count of values of column `j` failing the pattern check keyed by the
detected type of that column. -/
def colInvalidCount (H : Host) (t : Table) (j : ℕ) : ℕ :=
  validateDataPattern H (analysisColVals t j) (detectDataType H (analysisColVals t j))

/-- Penalty subtracted for column `j` when it has invalid values. -/
def colPenalty (H : Host) (t : Table) (j : ℕ) : ℚ :=
  ((colInvalidCount H t j : ℚ) / ((analysisColVals t j).length : ℚ)) * 20

/-- Validity score before flooring: start at 100 and subtract
`(invalidCount / valueCount) * 20` for every column whose pattern check,
keyed by the detected type, finds invalid values. -/
def analysisValidity (H : Host) (t : Table) : ℚ :=
  (List.range t.headers.length).foldl
    (fun score j => if colInvalidCount H t j > 0 then score - colPenalty H t j else score)
    100

/-- Value reported after a `toFixed(2)` round trip through a string
(`parseFloat` of the formatted metric), used by the overall score. -/
def jsToFixedVal (k : ℕ) : JSNum → JSNum
  | .num q => .num ((⌊q * 10 ^ k + 1/2⌋ : ℚ) / 10 ^ k)
  | x => x

/-- Model of `analyzeCSVQuality(filePath)` on the parsed table, restricted to
the fields the claims refer to (row and column counts, missing-value counts,
duplicates, detected types, quality metrics). -/
def analyzeCSVQuality (H : Host) (t : Table) : AnalysisReport :=
  if t.rows.isEmpty then emptyAnalysis
  else
    let headers := t.headers
    let n := t.rows.length
    let missingCounts := headers.mapIdx (fun j c => (c, (colVals t.rows j).countP isMissing))
    let totalMissing : ℕ := (missingCounts.map Prod.snd).sum
    let totalCells : ℚ := (n : ℚ) * (headers.length : ℚ)
    let completeness :=
      JSNum.mul (JSNum.div (.num (totalCells - totalMissing)) (.num totalCells)) (.num 100)
    let dataTypes := headers.mapIdx (fun j c => (c, detectDataType H (analysisColVals t j)))
    let consistencyIssues := dataTypes.countP (fun p => p.2 = .mixed)
    let consistency :=
      JSNum.mul (JSNum.div (.num ((headers.length : ℚ) - consistencyIssues)) (.num (headers.length : ℚ)))
        (.num 100)
    let uniqueLen := (uniqFirst t.rows).length
    let uniqueness := JSNum.mul (JSNum.div (.num (uniqueLen : ℚ)) (.num (n : ℚ))) (.num 100)
    let validity : JSNum := .num (max 0 (analysisValidity H t))
    let overall :=
      JSNum.div
        (JSNum.add
          (JSNum.add (JSNum.add (jsToFixedVal 2 completeness) (jsToFixedVal 2 consistency))
            (jsToFixedVal 2 validity))
          (jsToFixedVal 2 uniqueness))
        (.num 4)
    { totalRows := n
      totalColumns := headers.length
      missingCounts := missingCounts
      duplicates := n - uniqueLen
      dataTypes := dataTypes
      qualityMetrics :=
        { completeness := completeness
          consistency := consistency
          accuracy := .num 0
          validity := validity
          uniqueness := uniqueness
          overallScore := overall } }

/-- Number of exact full-row duplicates of a row list, as the claims count
them: total rows minus distinct rows. -/
def dupRowCount (rows : List (List String)) : ℕ := rows.length - rows.dedup.length

/-- Absence of missing cells: no cell of any row, at any header position, is
the missing sentinel. -/
def noMissingCells (headers : List String) (rows : List (List String)) : Bool :=
  (List.range headers.length).all (fun j => rows.all (fun r => ¬ isMissing (cellAt r j)))

/-- Validity penalty as the specification words it: the sum over offending
columns of `(invalidCount / valueCount) * 20`. -/
def specValidityPenalty (H : Host) (t : Table) : ℚ :=
  ((List.range t.headers.length).map (fun j =>
    if colInvalidCount H t j > 0 then colPenalty H t j else 0)).sum

/-- Mode with ties broken in favour of the value encountered first in row
order — the tie rule the claim asserts. -/
def firstMostFrequent (values : List String) : Option String :=
  match uniqFirst values with
  | [] => none
  | k :: ks =>
      some (ks.foldl (fun best k2 =>
        if values.count k2 > values.count best then k2 else best) k)

/-- One-row two-column table used to exercise the degenerate branches of the
correlation (single valid pair). -/
def corrWitnessTable : Table := ⟨["x", "y"], [["1", "2"]]⟩

theorem mem_uniqFirstAux {α : Type} [DecidableEq α] (l : List α) :
    ∀ (seen : List α) (x : α), x ∈ uniqFirstAux seen l ↔ x ∈ l ∧ x ∉ seen := by
  induction l with
  | nil => intro seen x; simp [uniqFirstAux]
  | cons r rs ih =>
    intro seen x
    by_cases hr : r ∈ seen
    · rw [uniqFirstAux, if_pos hr, ih]
      constructor
      · rintro ⟨hx, hs⟩
        exact ⟨List.mem_cons_of_mem _ hx, hs⟩
      · rintro ⟨hx, hs⟩
        rcases List.mem_cons.mp hx with rfl | hx
        · exact absurd hr hs
        · exact ⟨hx, hs⟩
    · rw [uniqFirstAux, if_neg hr]
      constructor
      · intro hx
        rcases List.mem_cons.mp hx with rfl | hx
        · exact ⟨List.mem_cons_self _ _, hr⟩
        · rw [ih] at hx
          refine ⟨List.mem_cons_of_mem _ hx.1, fun hs => hx.2 (List.mem_cons_of_mem _ hs)⟩
      · rintro ⟨hx, hs⟩
        rcases List.mem_cons.mp hx with rfl | hx
        · exact List.mem_cons_self _ _
        · by_cases hxr : x = r
          · subst hxr; exact List.mem_cons_self _ _
          · refine List.mem_cons_of_mem _ ?_
            rw [ih]
            refine ⟨hx, fun hmem => ?_⟩
            rcases List.mem_cons.mp hmem with h | h
            · exact hxr h
            · exact hs h

theorem nodup_uniqFirstAux {α : Type} [DecidableEq α] (l : List α) :
    ∀ seen : List α, (uniqFirstAux seen l).Nodup := by
  induction l with
  | nil => intro seen; simp [uniqFirstAux]
  | cons r rs ih =>
    intro seen
    by_cases hr : r ∈ seen
    · rw [uniqFirstAux, if_pos hr]; exact ih seen
    · rw [uniqFirstAux, if_neg hr]
      refine List.nodup_cons.mpr ⟨fun hmem => ?_, ih _⟩
      exact ((mem_uniqFirstAux rs _ r).mp hmem).2 (List.mem_cons_self _ _)

theorem sublist_uniqFirstAux {α : Type} [DecidableEq α] (l : List α) :
    ∀ seen : List α, (uniqFirstAux seen l).Sublist l := by
  induction l with
  | nil => intro seen; simp [uniqFirstAux]
  | cons r rs ih =>
    intro seen
    by_cases hr : r ∈ seen
    · rw [uniqFirstAux, if_pos hr]; exact (ih seen).cons r
    · rw [uniqFirstAux, if_neg hr]; exact (ih (r :: seen)).cons₂ r

theorem uniqFirst_nodup {α : Type} [DecidableEq α] (l : List α) : (uniqFirst l).Nodup :=
  nodup_uniqFirstAux l []

theorem uniqFirst_sublist {α : Type} [DecidableEq α] (l : List α) : (uniqFirst l).Sublist l :=
  sublist_uniqFirstAux l []

theorem mem_uniqFirst {α : Type} [DecidableEq α] (l : List α) (x : α) :
    x ∈ uniqFirst l ↔ x ∈ l := by
  rw [uniqFirst, mem_uniqFirstAux]
  simp

theorem uniqFirst_length_le {α : Type} [DecidableEq α] (l : List α) :
    (uniqFirst l).length ≤ l.length :=
  (uniqFirst_sublist l).length_le

theorem uniqFirst_length_eq_dedup {α : Type} [DecidableEq α] (l : List α) :
    (uniqFirst l).length = l.dedup.length := by
  have htf : (uniqFirst l).toFinset = l.toFinset := by
    ext x
    simp [List.mem_toFinset, mem_uniqFirst]
  calc (uniqFirst l).length = (uniqFirst l).toFinset.card :=
        (List.toFinset_card_of_nodup (uniqFirst_nodup l)).symm
    _ = l.toFinset.card := by rw [htf]
    _ = l.dedup.length := List.card_toFinset l

theorem uniqFirstAux_eq_self {α : Type} [DecidableEq α] (l : List α) :
    ∀ seen : List α, l.Nodup → (∀ x ∈ l, x ∉ seen) → uniqFirstAux seen l = l := by
  induction l with
  | nil => intro seen _ _; rfl
  | cons r rs ih =>
    intro seen hnd hdisj
    rw [uniqFirstAux, if_neg (hdisj r (List.mem_cons_self _ _))]
    congr 1
    refine ih (r :: seen) (List.nodup_cons.mp hnd).2 (fun x hx hmem => ?_)
    rcases List.mem_cons.mp hmem with rfl | h
    · exact (List.nodup_cons.mp hnd).1 hx
    · exact hdisj x (List.mem_cons_of_mem _ hx) h

theorem uniqFirst_eq_self {α : Type} [DecidableEq α] (l : List α) (h : l.Nodup) :
    uniqFirst l = l :=
  uniqFirstAux_eq_self l [] h (by simp)

theorem foldl_fst_length {β : Type} (f : (List (List String) × ℕ) → β → (List (List String) × ℕ))
    (hf : ∀ a x, ((f a x).1).length = a.1.length) :
    ∀ (l : List β) (init : List (List String) × ℕ),
      ((l.foldl f init).1).length = init.1.length := by
  intro l
  induction l with
  | nil => intro init; rfl
  | cons a l ih => intro init; rw [List.foldl_cons, ih, hf]

theorem foldl_rows_length {β : Type} (f : List (List String) → β → List (List String))
    (hf : ∀ a x, (f a x).length = a.length) :
    ∀ (l : List β) (init : List (List String)),
      (l.foldl f init).length = init.length := by
  intro l
  induction l with
  | nil => intro init; rfl
  | cons a l ih => intro init; rw [List.foldl_cons, ih, hf]

theorem step2_length (H : Host) (headers : List String) (rows : List (List String)) :
    ((step2 H headers rows).1).length = rows.length := by
  unfold step2
  exact foldl_fst_length _ (fun a j => by unfold step2Col; split <;> simp) _ _

theorem step3_length (H : Host) (headers : List String) (rows : List (List String)) :
    (step3 H headers rows).length = rows.length := by
  unfold step3
  exact foldl_rows_length _ (fun a j => by dsimp only; split <;> simp) _ _

theorem step4_length (headers : List String) (rows : List (List String)) :
    ((step4 headers rows).1).length = rows.length := by
  unfold step4
  exact foldl_fst_length _ (fun a j => by dsimp only; split <;> simp) _ _

theorem step5_length (normalizeNumeric : Bool) (headers : List String)
    (rows : List (List String)) :
    (step5 normalizeNumeric headers rows).length = rows.length := by
  unfold step5
  split
  · rfl
  · refine foldl_rows_length _ (fun a j => ?_) _ _
    dsimp only
    split
    · split
      · simp
      · rfl
    · rfl

theorem step6_length (H : Host) (headers : List String) (rows : List (List String)) :
    ((step6 H headers rows).1).length = rows.length := by
  unfold step6
  exact foldl_fst_length _ (fun a j => by simp) _ _

theorem step7_length (H : Host) (headers : List String) (rows : List (List String)) :
    ((step7 H headers rows).1).length = rows.length := by
  unfold step7
  exact foldl_fst_length _ (fun a j => by simp) _ _

theorem clean_data_length (H : Host) (normalizeNumeric : Bool) (t : Table) :
    (cleanCSVData H normalizeNumeric t).data.length = (uniqFirst t.rows).length := by
  unfold cleanCSVData
  dsimp only
  rw [step7_length, step6_length, step5_length, step4_length, step3_length, step2_length]

theorem patchAux_length {α : Type} (rs : List α) :
    ∀ (i : ℕ) (ks : List ℕ) (fs : List α), (patchAux i ks fs rs).length = rs.length := by
  induction rs with
  | nil => intro i ks fs; cases ks <;> cases fs <;> rfl
  | cons r rs ih =>
    intro i ks fs
    rcases ks with _ | ⟨k, ks1⟩
    · rw [patchAux]; simpa using ih (i + 1) [] fs
    · rcases fs with _ | ⟨f, fs1⟩
      · rw [patchAux]; simpa using ih (i + 1) (k :: ks1) []
      · rw [patchAux]
        split
        · simpa using ih (i + 1) ks1 fs1
        · simpa using ih (i + 1) (k :: ks1) (f :: fs1)

theorem keptIdxAux_ge {α : Type} [DecidableEq α] (l : List α) :
    ∀ (seen : List α) (i j : ℕ), j ∈ keptIdxAux seen i l → i ≤ j := by
  induction l with
  | nil => intro seen i j h; simp [keptIdxAux] at h
  | cons r rs ih =>
    intro seen i j h
    by_cases hr : r ∈ seen
    · rw [keptIdxAux, if_pos hr] at h
      exact Nat.le_of_succ_le (ih seen (i + 1) j h)
    · rw [keptIdxAux, if_neg hr] at h
      rcases List.mem_cons.mp h with rfl | h
      · exact le_refl _
      · exact Nat.le_of_succ_le (ih (r :: seen) (i + 1) j h)

theorem patchAux_skip {α : Type} (r : α) (rs : List α) (i : ℕ) (ks : List ℕ) (fs : List α)
    (h : ∀ k ∈ ks, i ≠ k) :
    patchAux i ks fs (r :: rs) = r :: patchAux (i + 1) ks fs rs := by
  rcases ks with _ | ⟨k, ks1⟩
  · rfl
  · rcases fs with _ | ⟨f, fs1⟩
    · rfl
    · rw [patchAux, if_neg (h k (List.mem_cons_self _ _))]

theorem patch_eq_iff {α : Type} [DecidableEq α] (rs : List α) :
    ∀ (seen : List α) (i : ℕ) (fs : List α),
      fs.length = (uniqFirstAux seen rs).length →
      (patchAux i (keptIdxAux seen i rs) fs rs = rs ↔ fs = uniqFirstAux seen rs) := by
  induction rs with
  | nil =>
    intro seen i fs hlen
    simp only [uniqFirstAux] at hlen ⊢
    simp [patchAux, List.length_eq_zero.mp hlen]
  | cons r rs ih =>
    intro seen i fs hlen
    by_cases hr : r ∈ seen
    · rw [uniqFirstAux, if_pos hr] at hlen ⊢
      rw [keptIdxAux, if_pos hr]
      rw [patchAux_skip r rs i _ fs
        (fun k hk h => by
          have := keptIdxAux_ge rs seen (i + 1) k hk
          omega)]
      rw [List.cons.injEq]
      simp only [true_and]
      exact ih seen (i + 1) fs hlen
    · rw [uniqFirstAux, if_neg hr] at hlen ⊢
      rw [keptIdxAux, if_neg hr]
      match fs with
      | [] => simp at hlen
      | f :: fs1 =>
        rw [patchAux, if_pos rfl]
        rw [List.cons.injEq, List.cons.injEq]
        have hlen1 : fs1.length = (uniqFirstAux (r :: seen) rs).length := by
          simpa using hlen
        constructor
        · rintro ⟨hf, hrest⟩
          exact ⟨hf, (ih (r :: seen) (i + 1) fs1 hlen1).mp hrest⟩
        · rintro ⟨hf, hrest⟩
          exact ⟨hf, (ih (r :: seen) (i + 1) fs1 hlen1).mpr hrest⟩

theorem keptIdxAux_length {α : Type} [DecidableEq α] (l : List α) :
    ∀ (seen : List α) (i : ℕ), (keptIdxAux seen i l).length = (uniqFirstAux seen l).length := by
  induction l with
  | nil => intro seen i; rfl
  | cons r rs ih =>
    intro seen i
    by_cases hr : r ∈ seen
    · rw [keptIdxAux, if_pos hr, uniqFirstAux, if_pos hr]; exact ih seen (i + 1)
    · rw [keptIdxAux, if_neg hr, uniqFirstAux, if_neg hr]
      simpa using ih (r :: seen) (i + 1)

/-- C1 counterexample: for the one-row table with column `a` and cell "01",
the cleaning pipeline rewrites the kept row object in place (type coercion
turns "01" into "1"), so after the call the caller-held input row no longer
holds its original cell value. -/
theorem c1_counterexample :
    inputAfterClean host0 false ⟨["a"], [["01"]]⟩ = [["1"]] ∧
    inputAfterClean host0 false ⟨["a"], [["01"]]⟩ ≠ [["01"]] := by
  constructor
  · decide
  · decide

/-- C1 amended: `cleanCSVData` copies only the row array, so the surviving
first-occurrence rows are mutated in place.  The input keeps its row count,
and it is left unchanged precisely when the cleaned rows coincide with the
deduplicated original rows — that is, only when no kept cell was changed by
any cleaning step; dropped duplicate rows always keep their original cells. -/
theorem c1_theorem (H : Host) (normalizeNumeric : Bool) (t : Table) :
    (inputAfterClean H normalizeNumeric t).length = t.rows.length ∧
    (inputAfterClean H normalizeNumeric t = t.rows ↔
      (cleanCSVData H normalizeNumeric t).data = uniqFirst t.rows) := by
  constructor
  · exact patchAux_length t.rows 0 _ _
  · exact patch_eq_iff t.rows [] 0 _ (by rw [clean_data_length]; rfl)

/-- C5: the cleaned table has exactly the original rows minus the exact
full-row duplicates: its row count is the number of distinct rows, is at most
the original row count, `duplicatesRemoved` is the number of dropped
duplicate occurrences, and the deduplication step keeps the first occurrence
of every row value (its output is a duplicate-free sublist of the input with
the same member set). -/
theorem c5_theorem (H : Host) (normalizeNumeric : Bool) (t : Table) :
    (cleanCSVData H normalizeNumeric t).data.length = t.rows.length - dupRowCount t.rows ∧
    (cleanCSVData H normalizeNumeric t).data.length ≤ t.rows.length ∧
    (cleanCSVData H normalizeNumeric t).duplicatesRemoved = dupRowCount t.rows ∧
    (uniqFirst t.rows).Nodup ∧
    (uniqFirst t.rows).Sublist t.rows ∧
    (∀ r, r ∈ uniqFirst t.rows ↔ r ∈ t.rows) := by
  have hdl : (cleanCSVData H normalizeNumeric t).data.length = (uniqFirst t.rows).length :=
    clean_data_length H normalizeNumeric t
  have hde : (uniqFirst t.rows).length = t.rows.dedup.length := uniqFirst_length_eq_dedup t.rows
  have hle : (uniqFirst t.rows).length ≤ t.rows.length := uniqFirst_length_le t.rows
  have hdup : (cleanCSVData H normalizeNumeric t).duplicatesRemoved = dupRowCount t.rows := by
    show t.rows.length - (uniqFirst t.rows).length = dupRowCount t.rows
    rw [dupRowCount, hde]
  refine ⟨?_, ?_, hdup, uniqFirst_nodup t.rows, uniqFirst_sublist t.rows, mem_uniqFirst t.rows⟩
  · rw [hdl, dupRowCount, ← hde]
    omega
  · rw [hdl]; exact hle

/-- C2, evaluation at the failing input: the two-element numeric column
`[0, 1]` has mean 1/2 and population standard deviation 1/2 (certified by its
square being the variance), the count 2 is below 4, the standard deviation is
not 0 — yet skewness and kurtosis both evaluate to NaN, because only
`std === 0` is guarded and the `n - 2` (resp. `n - 3`) factors put a zero in
the denominators.  The claimed fail-soft value 0 is not produced. -/
theorem c2_theorem :
    meanOf [0, 1] = 1/2 ∧
    ((1:ℚ)/2) ^ 2 = varianceOf [0, 1] ∧ (0:ℚ) ≤ 1/2 ∧ ¬ ((1:ℚ)/2 = 0) ∧
    ([(0:ℚ), 1].length < 4) ∧
    calculateSkewness [0, 1] (meanOf [0, 1]) (1/2) = JSNum.nan ∧
    calculateKurtosis [0, 1] (meanOf [0, 1]) (1/2) = JSNum.nan := by
  refine ⟨by decide, by decide, by decide, by decide, by decide, by decide, by decide⟩

/-- C3, evaluation at the failing input: one numeric column with the values
5, 100, 1, 2, 3 in row order.  Immediately before capping the column is
unchanged; the specification fences, from sorted linear-interpolation
percentiles, are [-5/2, 19/2].  The run-time `percentile` does not sort, so
the capping step computes fences from the unsorted positions (Q1 = 100,
Q3 = 2, giving bounds [247, -145]) and rewrites every cell to "247" — far
outside the claimed interval. -/
theorem c3_theorem :
    (colVals (afterStep3 host0 ⟨["a"], [["5"], ["100"], ["1"], ["2"], ["3"]]⟩) 0).filterMap
        jsParseFloat = [5, 100, 1, 2, 3] ∧
    specPercentile [5, 100, 1, 2, 3] 25 = 2 ∧
    specPercentile [5, 100, 1, 2, 3] 75 = 5 ∧
    specPercentile [5, 100, 1, 2, 3] 25 -
        3/2 * (specPercentile [5, 100, 1, 2, 3] 75 - specPercentile [5, 100, 1, 2, 3] 25) = -5/2 ∧
    specPercentile [5, 100, 1, 2, 3] 75 +
        3/2 * (specPercentile [5, 100, 1, 2, 3] 75 - specPercentile [5, 100, 1, 2, 3] 25) = 19/2 ∧
    (colVals (afterStep4 host0 ⟨["a"], [["5"], ["100"], ["1"], ["2"], ["3"]]⟩) 0).filterMap
        jsParseFloat = [247, 247, 247, 247, 247] ∧
    ¬ ((247:ℚ) ≤ 19/2) := by
  refine ⟨by decide, by decide, by decide, by decide, by decide, by decide, by decide⟩

theorem detectDataType_not_semantic (H : Host) (values : List String) :
    detectDataType H values ≠ PatternKey.email ∧
    detectDataType H values ≠ PatternKey.phone ∧
    detectDataType H values ≠ PatternKey.url ∧
    detectDataType H values ≠ PatternKey.mixed := by
  unfold detectDataType
  dsimp only
  split_ifs <;> simp

theorem foldl_validity_sum (H : Host) (t : Table) :
    ∀ (L : List ℕ) (init : ℚ),
      L.foldl (fun score j => if colInvalidCount H t j > 0 then score - colPenalty H t j
        else score) init
        = init - (L.map (fun j =>
            if colInvalidCount H t j > 0 then colPenalty H t j else 0)).sum := by
  intro L
  induction L with
  | nil => intro init; simp
  | cons a L ih =>
    intro init
    rw [List.foldl_cons, ih, List.map_cons, List.sum_cons]
    split_ifs with h
    · ring
    · ring

/-- C4 counterexample: the column named `email` holding "BAD EMAIL" is
inferred `categorical` (the validator is keyed on the inferred type, not on
the column name), so although the email regular expression would reject the
value, the validity score stays at 100 — the claimed penalty never happens. -/
theorem c4_counterexample :
    detectDataType host0 ["BAD EMAIL"] = PatternKey.categorical ∧
    emailOk "BAD EMAIL" = false ∧
    validateDataPattern host0 ["BAD EMAIL"] PatternKey.email = 1 ∧
    (analyzeCSVQuality host0 ⟨["email"], [["BAD EMAIL"]]⟩).qualityMetrics.validity =
      JSNum.num 100 := by
  refine ⟨by decide, by decide, by decide, by decide⟩

/-- C4 amended: validity scoring keys the validation pattern on the type
inferred from the column values, never on the column name; since type
inference only produces numeric/date/categorical/unknown, the email, phone
and url branches of the validator are unreachable.  The penalty arithmetic is
as claimed: the validity metric is `max 0 (100 - Σ (invalid/count)*20)` over
the offending columns. -/
theorem c4_theorem (H : Host) (t : Table) (values : List String) :
    (detectDataType H values ≠ PatternKey.email ∧
     detectDataType H values ≠ PatternKey.phone ∧
     detectDataType H values ≠ PatternKey.url) ∧
    analysisValidity H t = 100 - specValidityPenalty H t ∧
    (analyzeCSVQuality H t).qualityMetrics.validity =
      (if t.rows.isEmpty then JSNum.num 0
       else JSNum.num (max 0 (100 - specValidityPenalty H t))) := by
  refine ⟨⟨(detectDataType_not_semantic H values).1, (detectDataType_not_semantic H values).2.1,
    (detectDataType_not_semantic H values).2.2.1⟩, ?_, ?_⟩
  · unfold analysisValidity specValidityPenalty
    exact foldl_validity_sum H t (List.range t.headers.length) 100
  · have hv : analysisValidity H t = 100 - specValidityPenalty H t := by
      unfold analysisValidity specValidityPenalty
      exact foldl_validity_sum H t (List.range t.headers.length) 100
    unfold analyzeCSVQuality
    split
    · rfl
    · simp only [hv]

theorem step2Col_no_missing (H : Host) (rows : List (List String)) (j : ℕ)
    (h : ∀ r ∈ rows, isMissing (cellAt r j) = false) :
    ∀ c : ℕ, step2Col H (rows, c) j = (rows, c) := by
  intro c
  unfold step2Col
  have hcnt : (colVals rows j).countP isMissing = 0 := by
    rw [List.countP_eq_zero]
    intro s hs
    simp only [colVals, List.mem_map] at hs
    obtain ⟨r, hr, rfl⟩ := hs
    simp [h r hr]
  have hmap : ∀ m : String,
      rows.map (fun r => if isMissing (cellAt r j) then r.set j m else r) = rows := by
    intro m
    have hc : ∀ r ∈ rows,
        (if isMissing (cellAt r j) then r.set j m else r) = (fun r => r) r := by
      intro r hr
      rw [h r hr]
      simp
    rw [List.map_congr_left hc, List.map_id']
  cases himp : imputeFill H (colVals rows j) with
  | none => rfl
  | some m => simp [hmap m, hcnt]

theorem step2_no_missing (H : Host) (headers : List String) (rows : List (List String))
    (h : ∀ j < headers.length, ∀ r ∈ rows, isMissing (cellAt r j) = false) :
    step2 H headers rows = (rows, 0) := by
  unfold step2
  suffices haux : ∀ (L : List ℕ), (∀ j ∈ L, j < headers.length) →
      L.foldl (step2Col H) (rows, 0) = (rows, 0) by
    exact haux (List.range headers.length) (by simp)
  intro L
  induction L with
  | nil => intro _; rfl
  | cons a L ih =>
    intro hL
    rw [List.foldl_cons, step2Col_no_missing H rows a (h a (hL a (List.mem_cons_self _ _)))]
    exact ih (fun j hj => hL j (List.mem_cons_of_mem _ hj))

theorem clean_counters_zero (H : Host) (normalizeNumeric : Bool) (u : Table)
    (hnd : u.rows.Nodup) (hnm : noMissingCells u.headers u.rows = true) :
    (cleanCSVData H normalizeNumeric u).duplicatesRemoved = 0 ∧
    (cleanCSVData H normalizeNumeric u).valuesImputed = 0 := by
  have hd1 : uniqFirst u.rows = u.rows := uniqFirst_eq_self _ hnd
  have hmiss : ∀ j < (headersOf u).length, ∀ r ∈ u.rows, isMissing (cellAt r j) = false := by
    intro j hj r hr
    have hlen : (headersOf u).length ≤ u.headers.length := by
      unfold headersOf
      cases u.rows with
      | nil => simp
      | cons a l => exact le_refl _
    have := (List.all_eq_true.mp hnm) j (List.mem_range.mpr (lt_of_lt_of_le hj hlen))
    have := (List.all_eq_true.mp this) r hr
    simpa using this
  constructor
  · show u.rows.length - (uniqFirst u.rows).length = 0
    rw [hd1, Nat.sub_self]
  · show (step2 H (headersOf u) (uniqFirst u.rows)).2 = 0
    rw [hd1, step2_no_missing H (headersOf u) u.rows hmiss]

/-- C6 counterexample: cleaning the table with single column `a` and rows
"1.0", "1" coerces both cells to "1" (step 6), so the cleaned table has two
identical rows; re-cleaning it reports `duplicatesRemoved = 1`, not 0. -/
theorem c6_counterexample :
    (cleanCSVData host0 false ⟨["a"], [["1.0"], ["1"]]⟩).data = [["1"], ["1"]] ∧
    (cleanCSVData host0 false ⟨["a"],
      (cleanCSVData host0 false ⟨["a"], [["1.0"], ["1"]]⟩).data⟩).duplicatesRemoved = 1 := by
  refine ⟨by decide, by decide⟩

/-- C6 amended: re-cleaning a cleaned table reports zero duplicates removed
and zero values imputed PROVIDED the first cleaning left no two equal rows
and no missing cells — the later cleaning steps (type coercion, validation
stripping) can merge distinct rows or empty cells, and then the second run
reports nonzero counters. -/
theorem c6_theorem (H : Host) (o1 o2 : Bool) (t : Table)
    (hnd : ((cleanCSVData H o1 t).data).Nodup)
    (hnm : noMissingCells (cleanCSVData H o1 t).headers (cleanCSVData H o1 t).data = true) :
    (cleanCSVData H o2
      ⟨(cleanCSVData H o1 t).headers, (cleanCSVData H o1 t).data⟩).duplicatesRemoved = 0 ∧
    (cleanCSVData H o2
      ⟨(cleanCSVData H o1 t).headers, (cleanCSVData H o1 t).data⟩).valuesImputed = 0 :=
  clean_counters_zero H o2 ⟨(cleanCSVData H o1 t).headers, (cleanCSVData H o1 t).data⟩ hnd hnm

theorem c6_witness :
    ((cleanCSVData host0 false ⟨["a"], [["x"], ["y"]]⟩).data).Nodup ∧
    noMissingCells (cleanCSVData host0 false ⟨["a"], [["x"], ["y"]]⟩).headers
      (cleanCSVData host0 false ⟨["a"], [["x"], ["y"]]⟩).data = true ∧
    (cleanCSVData host0 false
      ⟨(cleanCSVData host0 false ⟨["a"], [["x"], ["y"]]⟩).headers,
       (cleanCSVData host0 false ⟨["a"], [["x"], ["y"]]⟩).data⟩).duplicatesRemoved = 0 ∧
    (cleanCSVData host0 false
      ⟨(cleanCSVData host0 false ⟨["a"], [["x"], ["y"]]⟩).headers,
       (cleanCSVData host0 false ⟨["a"], [["x"], ["y"]]⟩).data⟩).valuesImputed = 0 :=
  ⟨by decide, by decide,
   (c6_theorem host0 false false ⟨["a"], [["x"], ["y"]]⟩ (by decide) (by decide)).1,
   (c6_theorem host0 false false ⟨["a"], [["x"], ["y"]]⟩ (by decide) (by decide)).2⟩

theorem cs_step (a b S X Y : ℚ) (h : S ^ 2 ≤ X * Y) (hX : 0 ≤ X) (hY : 0 ≤ Y) :
    (a * b + S) ^ 2 ≤ (a ^ 2 + X) * (b ^ 2 + Y) := by
  rcases eq_or_lt_of_le hY with hY0 | hYpos
  · have hS : S = 0 := by nlinarith [sq_nonneg S]
    subst hS
    nlinarith [sq_nonneg (a * b), mul_nonneg hX (sq_nonneg b)]
  · nlinarith [sq_nonneg (a * Y - b * S), mul_nonneg (sub_nonneg.mpr h) (sq_nonneg b),
      mul_nonneg (sub_nonneg.mpr h) hYpos.le, hYpos]

theorem sum_sq_nonneg_fst (l : List (ℚ × ℚ)) : 0 ≤ (l.map (fun p => p.1 ^ 2)).sum := by
  apply List.sum_nonneg
  intro x hx
  simp only [List.mem_map] at hx
  obtain ⟨p, _, rfl⟩ := hx
  positivity

theorem sum_sq_nonneg_snd (l : List (ℚ × ℚ)) : 0 ≤ (l.map (fun p => p.2 ^ 2)).sum := by
  apply List.sum_nonneg
  intro x hx
  simp only [List.mem_map] at hx
  obtain ⟨p, _, rfl⟩ := hx
  positivity

theorem list_cauchy_schwarz (l : List (ℚ × ℚ)) :
    ((l.map (fun p => p.1 * p.2)).sum) ^ 2 ≤
      ((l.map (fun p => p.1 ^ 2)).sum) * ((l.map (fun p => p.2 ^ 2)).sum) := by
  induction l with
  | nil => simp
  | cons p ps ih =>
    simp only [List.map_cons, List.sum_cons]
    exact cs_step p.1 p.2 _ _ _ ih (sum_sq_nonneg_fst ps) (sum_sq_nonneg_snd ps)

theorem corr_num_sq_le (pairs : List (ℚ × ℚ)) :
    (corrNum pairs) ^ 2 ≤ corrSum1 pairs * corrSum2 pairs := by
  have h := list_cauchy_schwarz (pairs.map (fun p =>
    (p.1 - meanOf (pairs.map Prod.fst), p.2 - meanOf (pairs.map Prod.snd))))
  unfold corrNum corrSum1 corrSum2
  dsimp only
  simpa [List.map_map, Function.comp] using h

theorem corrSum1_nonneg (pairs : List (ℚ × ℚ)) : 0 ≤ corrSum1 pairs := by
  unfold corrSum1
  dsimp only
  apply List.sum_nonneg
  intro x hx
  simp only [List.mem_map] at hx
  obtain ⟨p, _, rfl⟩ := hx
  positivity

theorem corrSum2_nonneg (pairs : List (ℚ × ℚ)) : 0 ≤ corrSum2 pairs := by
  unfold corrSum2
  dsimp only
  apply List.sum_nonneg
  intro x hx
  simp only [List.mem_map] at hx
  obtain ⟨p, _, rfl⟩ := hx
  positivity

theorem filterMap_pairs_eq (i j : ℕ) (rows : List (List String)) :
    rows.filterMap (fun r =>
      match jsParseFloat (cellAt r i), jsParseFloat (cellAt r j) with
      | some a, some b => some (a, b)
      | _, _ => none)
    = (rows.filter (fun r =>
        (jsParseFloat (cellAt r i)).isSome && (jsParseFloat (cellAt r j)).isSome)).map
        (fun r => ((jsParseFloat (cellAt r i)).getD 0, (jsParseFloat (cellAt r j)).getD 0)) := by
  induction rows with
  | nil => rfl
  | cons r rs ih =>
    rw [List.filterMap_cons, List.filter_cons]
    cases h1 : jsParseFloat (cellAt r i) with
    | none => simpa [h1] using ih
    | some a =>
      cases h2 : jsParseFloat (cellAt r j) with
      | none => simpa [h1, h2] using ih
      | some b => simpa [h1, h2] using ih

/-- C7: the correlation operates on pairwise-complete observations (exactly
the rows where both cells parse), every coefficient lies in [-1, 1] by the
Cauchy-Schwarz inequality on the exact sums, and the coefficient is 0 — not
NaN — whenever fewer than two valid pairs exist or either sum of squares is
zero (the `denominator === 0` guard). -/
theorem c7_theorem (t : Table) (i j : ℕ) :
    corrPairs t i j = (t.rows.filter (fun r =>
        (jsParseFloat (cellAt r i)).isSome && (jsParseFloat (cellAt r j)).isSome)).map
        (fun r => ((jsParseFloat (cellAt r i)).getD 0, (jsParseFloat (cellAt r j)).getD 0)) ∧
    -1 ≤ calculateCorrelation t i j ∧ calculateCorrelation t i j ≤ 1 ∧
    ((corrPairs t i j).length < 2 → calculateCorrelation t i j = 0) ∧
    (corrSum1 (corrPairs t i j) = 0 ∨ corrSum2 (corrPairs t i j) = 0 →
      calculateCorrelation t i j = 0) := by
  have hpairs := filterMap_pairs_eq i j t.rows
  have hbounds : -1 ≤ calculateCorrelation t i j ∧ calculateCorrelation t i j ≤ 1 := by
    unfold calculateCorrelation
    dsimp only
    split
    · norm_num
    · split
      · norm_num
      · rename_i hlen hden
        set pairs := corrPairs t i j with hp
        have hs1 : (0:ℝ) ≤ (corrSum1 pairs : ℝ) := by
          exact_mod_cast corrSum1_nonneg pairs
        have hs2 : (0:ℝ) ≤ (corrSum2 pairs : ℝ) := by
          exact_mod_cast corrSum2_nonneg pairs
        have hpos : 0 < Real.sqrt ((corrSum1 pairs : ℝ) * (corrSum2 pairs : ℝ)) :=
          lt_of_le_of_ne (Real.sqrt_nonneg _) (Ne.symm hden)
        have hcs : ((corrNum pairs : ℝ)) ^ 2 ≤ (corrSum1 pairs : ℝ) * (corrSum2 pairs : ℝ) := by
          exact_mod_cast corr_num_sq_le pairs
        have habs : |(corrNum pairs : ℝ)| ≤
            Real.sqrt ((corrSum1 pairs : ℝ) * (corrSum2 pairs : ℝ)) := by
          rw [← Real.sqrt_sq_eq_abs]
          exact Real.sqrt_le_sqrt hcs
        have hdivabs : |(corrNum pairs : ℝ) /
            Real.sqrt ((corrSum1 pairs : ℝ) * (corrSum2 pairs : ℝ))| ≤ 1 := by
          rw [abs_div, abs_of_pos hpos]
          exact (div_le_one hpos).mpr habs
        exact abs_le.mp hdivabs
  refine ⟨hpairs, hbounds.1, hbounds.2, ?_, ?_⟩
  · intro hlt
    unfold calculateCorrelation
    dsimp only
    rw [if_pos hlt]
  · intro hz
    unfold calculateCorrelation
    dsimp only
    split
    · rfl
    · have hzero : Real.sqrt ((corrSum1 (corrPairs t i j) : ℝ) *
          (corrSum2 (corrPairs t i j) : ℝ)) = 0 := by
        rcases hz with hz | hz
        · rw [hz]; push_cast; rw [zero_mul, Real.sqrt_zero]
        · rw [hz]; push_cast; rw [mul_zero, Real.sqrt_zero]
      rw [if_pos hzero]

theorem c7_witness :
    ((corrPairs corrWitnessTable 0 1).length < 2) ∧
    corrSum1 (corrPairs corrWitnessTable 0 1) = 0 ∧
    calculateCorrelation corrWitnessTable 0 1 = 0 ∧
    calculateCorrelation corrWitnessTable 0 1 = 0 :=
  ⟨by decide, by decide,
   (c7_theorem corrWitnessTable 0 1).2.2.2.1 (by decide),
   (c7_theorem corrWitnessTable 0 1).2.2.2.2 (Or.inl (by decide))⟩

theorem uniqFirst_cons_ne_nil (r : List String) (rs : List (List String)) :
    uniqFirst (r :: rs) ≠ [] := by
  rw [uniqFirst, uniqFirstAux]
  simp

theorem cdqs_zero_headers (data : List (List String)) (hne : data ≠ []) :
    calculateDataQualityScore data [] = JSNum.nan := by
  unfold calculateDataQualityScore
  rw [if_neg (by simpa using hne)]
  dsimp only
  simp [JSNum.div, JSNum.mul, JSNum.add, JSNum.round]

theorem clean_zero_columns_score (H : Host) (normalizeNumeric : Bool) (r : List String)
    (rs : List (List String)) :
    (cleanCSVData H normalizeNumeric ⟨[], r :: rs⟩).finalQualityScore = JSNum.nan := by
  cases normalizeNumeric with
  | false => exact cdqs_zero_headers (uniqFirst (r :: rs)) (uniqFirst_cons_ne_nil r rs)
  | true => exact cdqs_zero_headers (uniqFirst (r :: rs)) (uniqFirst_cons_ne_nil r rs)

theorem analyze_zero_columns (H : Host) (r : List String) (rs : List (List String)) :
    (analyzeCSVQuality H ⟨[], r :: rs⟩).qualityMetrics.completeness = JSNum.nan ∧
    (analyzeCSVQuality H ⟨[], r :: rs⟩).qualityMetrics.consistency = JSNum.nan ∧
    (analyzeCSVQuality H ⟨[], r :: rs⟩).qualityMetrics.overallScore = JSNum.nan ∧
    (analyzeCSVQuality H ⟨[], r :: rs⟩).qualityMetrics.validity = JSNum.num 100 ∧
    (analyzeCSVQuality H ⟨[], r :: rs⟩).qualityMetrics.uniqueness =
      JSNum.num (((uniqFirst (r :: rs)).length : ℚ) / (((r :: rs).length : ℚ)) * 100) := by
  unfold analyzeCSVQuality
  rw [if_neg (by simp)]
  dsimp only
  have hn : ((rs.length : ℚ)) + 1 ≠ 0 := by positivity
  refine ⟨?_, ?_, ?_, ?_, ?_⟩
  · simp [JSNum.div, JSNum.mul]
  · simp [JSNum.div, JSNum.mul]
  · simp [JSNum.div, JSNum.mul, JSNum.add, jsToFixedVal]
  · simp [analysisValidity]
  · simp [JSNum.div, JSNum.mul, hn]

/-- C8 counterexample: a table with one row and zero columns raises no error,
but the report is not all-zero: completeness and consistency are 0/0 = NaN,
validity is 100, uniqueness is the distinct-row fraction (100 for one row, 50
for two identical empty rows), and the cleaning report carries a NaN
`finalQualityScore`. -/
theorem c8_counterexample :
    (analyzeCSVQuality host0 ⟨[], [[]]⟩).totalRows = 1 ∧
    (analyzeCSVQuality host0 ⟨[], [[]]⟩).totalColumns = 0 ∧
    (analyzeCSVQuality host0 ⟨[], [[]]⟩).qualityMetrics.completeness = JSNum.nan ∧
    (analyzeCSVQuality host0 ⟨[], [[]]⟩).qualityMetrics.consistency = JSNum.nan ∧
    (analyzeCSVQuality host0 ⟨[], [[]]⟩).qualityMetrics.uniqueness = JSNum.num 100 ∧
    (analyzeCSVQuality host0 ⟨[], [[], []]⟩).qualityMetrics.uniqueness = JSNum.num 50 ∧
    (analyzeCSVQuality host0 ⟨[], [[]]⟩).qualityMetrics.overallScore = JSNum.nan ∧
    (cleanCSVData host0 false ⟨[], [[]]⟩).finalQualityScore = JSNum.nan ∧
    JSNum.nan ≠ JSNum.num 0 := by
  refine ⟨by decide, by decide, by decide, by decide, by decide, by decide, by decide,
    by decide, by decide⟩

/-- C8 amended: on a zero-row table both entry points return well-formed
reports with every metric and counter zero (and the cleaning report contains
only the two unconditional sentences); being total functions of the table,
they raise nothing.  On a zero-column table that still has rows no error is
raised either, but the report is not all-zero: completeness, consistency and
overallScore are NaN (0/0), the cleaning report carries a NaN
`finalQualityScore`, validity is 100, and uniqueness is the distinct-row
fraction times 100 — with every row the empty record that is 100/n, so 100
only for a single row. -/
theorem c8_theorem (H : Host) (normalizeNumeric : Bool) (hs : List String)
    (r : List String) (rs : List (List String)) :
    (analyzeCSVQuality H ⟨hs, []⟩ = emptyAnalysis ∧
     (cleanCSVData H normalizeNumeric ⟨hs, []⟩).data = [] ∧
     (cleanCSVData H normalizeNumeric ⟨hs, []⟩).duplicatesRemoved = 0 ∧
     (cleanCSVData H normalizeNumeric ⟨hs, []⟩).valuesImputed = 0 ∧
     (cleanCSVData H normalizeNumeric ⟨hs, []⟩).outliersTreated = 0 ∧
     (cleanCSVData H normalizeNumeric ⟨hs, []⟩).typeConversions = 0 ∧
     (cleanCSVData H normalizeNumeric ⟨hs, []⟩).validationIssues = 0 ∧
     (cleanCSVData H normalizeNumeric ⟨hs, []⟩).finalQualityScore = JSNum.num 0 ∧
     (cleanCSVData H normalizeNumeric ⟨hs, []⟩).stepsApplied = [textMsg, doneMsg]) ∧
    ((analyzeCSVQuality H ⟨[], r :: rs⟩).qualityMetrics.completeness = JSNum.nan ∧
     (analyzeCSVQuality H ⟨[], r :: rs⟩).qualityMetrics.consistency = JSNum.nan ∧
     (analyzeCSVQuality H ⟨[], r :: rs⟩).qualityMetrics.overallScore = JSNum.nan ∧
     (analyzeCSVQuality H ⟨[], r :: rs⟩).qualityMetrics.validity = JSNum.num 100 ∧
     (analyzeCSVQuality H ⟨[], r :: rs⟩).qualityMetrics.uniqueness =
       JSNum.num (((uniqFirst (r :: rs)).length : ℚ) / (((r :: rs).length : ℚ)) * 100) ∧
     (cleanCSVData H normalizeNumeric ⟨[], r :: rs⟩).finalQualityScore = JSNum.nan) := by
  constructor
  · cases normalizeNumeric <;>
      exact ⟨rfl, rfl, rfl, rfl, rfl, rfl, rfl, rfl, rfl⟩
  · obtain ⟨h1, h2, h3, h4, h5⟩ := analyze_zero_columns H r rs
    exact ⟨h1, h2, h3, h4, h5, clean_zero_columns_score H normalizeNumeric r rs⟩

/-- C9 counterexample: on a zero-row table no cell changes at all, yet
`stepsApplied` still receives the text-standardisation sentence (pushed
unconditionally) and the completion sentence — sentences are not appended
exactly when a step changed a cell. -/
theorem c9_counterexample :
    (cleanCSVData host0 false ⟨["a"], []⟩).data = [] ∧
    (cleanCSVData host0 false ⟨["a"], []⟩).duplicatesRemoved = 0 ∧
    (cleanCSVData host0 false ⟨["a"], []⟩).valuesImputed = 0 ∧
    (cleanCSVData host0 false ⟨["a"], []⟩).outliersTreated = 0 ∧
    (cleanCSVData host0 false ⟨["a"], []⟩).typeConversions = 0 ∧
    (cleanCSVData host0 false ⟨["a"], []⟩).validationIssues = 0 ∧
    textMsg ∈ (cleanCSVData host0 false ⟨["a"], []⟩).stepsApplied := by
  refine ⟨by decide, by decide, by decide, by decide, by decide, by decide, by decide⟩

/-- C9 amended: the report sentences appear in the fixed step order, but the
text-standardisation sentence and the completion sentence are appended
unconditionally, and the type-conversion and validation counters count
processed cells (and unconditional email-lowercase writes), not only changed
cells; step 5 never appends a sentence and step 3 changes cells without any
counter.  The sentence list is exactly determined by the counters as below. -/
theorem c9_theorem (H : Host) (normalizeNumeric : Bool) (t : Table) :
    (cleanCSVData H normalizeNumeric t).stepsApplied =
      (if (cleanCSVData H normalizeNumeric t).duplicatesRemoved > 0
        then [dedupMsg ((cleanCSVData H normalizeNumeric t).duplicatesRemoved)] else []) ++
      (if (cleanCSVData H normalizeNumeric t).valuesImputed > 0
        then [imputeMsg ((cleanCSVData H normalizeNumeric t).valuesImputed)] else []) ++
      [textMsg] ++
      (if (cleanCSVData H normalizeNumeric t).outliersTreated > 0
        then [outlierMsg ((cleanCSVData H normalizeNumeric t).outliersTreated)] else []) ++
      (if (cleanCSVData H normalizeNumeric t).typeConversions > 0
        then [convMsg ((cleanCSVData H normalizeNumeric t).typeConversions)] else []) ++
      (if (cleanCSVData H normalizeNumeric t).validationIssues > 0
        then [validMsg ((cleanCSVData H normalizeNumeric t).validationIssues)] else []) ++
      [doneMsg] ∧
    textMsg ∈ (cleanCSVData H normalizeNumeric t).stepsApplied ∧
    doneMsg ∈ (cleanCSVData H normalizeNumeric t).stepsApplied := by
  refine ⟨rfl, ?_, ?_⟩
  · show textMsg ∈
      (if (cleanCSVData H normalizeNumeric t).duplicatesRemoved > 0
        then [dedupMsg ((cleanCSVData H normalizeNumeric t).duplicatesRemoved)] else []) ++
      (if (cleanCSVData H normalizeNumeric t).valuesImputed > 0
        then [imputeMsg ((cleanCSVData H normalizeNumeric t).valuesImputed)] else []) ++
      [textMsg] ++
      (if (cleanCSVData H normalizeNumeric t).outliersTreated > 0
        then [outlierMsg ((cleanCSVData H normalizeNumeric t).outliersTreated)] else []) ++
      (if (cleanCSVData H normalizeNumeric t).typeConversions > 0
        then [convMsg ((cleanCSVData H normalizeNumeric t).typeConversions)] else []) ++
      (if (cleanCSVData H normalizeNumeric t).validationIssues > 0
        then [validMsg ((cleanCSVData H normalizeNumeric t).validationIssues)] else []) ++
      [doneMsg]
    simp [List.mem_append]
  · show doneMsg ∈
      (if (cleanCSVData H normalizeNumeric t).duplicatesRemoved > 0
        then [dedupMsg ((cleanCSVData H normalizeNumeric t).duplicatesRemoved)] else []) ++
      (if (cleanCSVData H normalizeNumeric t).valuesImputed > 0
        then [imputeMsg ((cleanCSVData H normalizeNumeric t).valuesImputed)] else []) ++
      [textMsg] ++
      (if (cleanCSVData H normalizeNumeric t).outliersTreated > 0
        then [outlierMsg ((cleanCSVData H normalizeNumeric t).outliersTreated)] else []) ++
      (if (cleanCSVData H normalizeNumeric t).typeConversions > 0
        then [convMsg ((cleanCSVData H normalizeNumeric t).typeConversions)] else []) ++
      (if (cleanCSVData H normalizeNumeric t).validationIssues > 0
        then [validMsg ((cleanCSVData H normalizeNumeric t).validationIssues)] else []) ++
      [doneMsg]
    simp [List.mem_append]

theorem jsMaxBySnd_ne_none (a : String × ℕ) (ps : List (String × ℕ)) :
    jsMaxBySnd (a :: ps) ≠ none := by
  intro hc
  rw [jsMaxBySnd] at hc
  cases h : jsMaxBySnd ps with
  | none => rw [h] at hc; exact Option.noConfusion hc
  | some q =>
    rw [h] at hc
    dsimp only at hc
    split at hc <;> exact Option.noConfusion hc

theorem jsMaxBySnd_spec (ps : List (String × ℕ)) :
    ∀ p, jsMaxBySnd ps = some p → p ∈ ps ∧ ∀ q ∈ ps, q.2 ≤ p.2 := by
  induction ps with
  | nil => intro p h; simp [jsMaxBySnd] at h
  | cons a ps ih =>
    intro p h
    rw [jsMaxBySnd] at h
    cases hrec : jsMaxBySnd ps with
    | none =>
      rw [hrec] at h
      dsimp only at h
      cases h
      cases ps with
      | nil => exact ⟨List.mem_cons_self _ _, by simp⟩
      | cons b ps1 => exact absurd hrec (jsMaxBySnd_ne_none b ps1)
    | some q =>
      rw [hrec] at h
      dsimp only at h
      obtain ⟨hqmem, hqmax⟩ := ih q hrec
      by_cases hgt : q.2 > a.2
      · rw [if_pos hgt] at h
        cases h
        refine ⟨List.mem_cons_of_mem _ hqmem, fun x hx => ?_⟩
        rcases List.mem_cons.mp hx with rfl | hx
        · exact le_of_lt hgt
        · exact hqmax x hx
      · rw [if_neg hgt] at h
        cases h
        refine ⟨List.mem_cons_self _ _, fun x hx => ?_⟩
        rcases List.mem_cons.mp hx with rfl | hx
        · exact le_refl _
        · exact le_trans (hqmax x hx) (not_lt.mp hgt)

theorem jsCountByPairs_mem (values : List String) (p : String × ℕ)
    (h : p ∈ jsCountByPairs values) :
    p.1 ∈ values ∧ p.2 = values.count p.1 := by
  unfold jsCountByPairs at h
  dsimp only at h
  simp only [List.mem_map] at h
  obtain ⟨k, hk, rfl⟩ := h
  refine ⟨?_, rfl⟩
  rcases List.mem_append.mp hk with hk | hk
  · exact (mem_uniqFirst values k).mp
      ((List.mem_filter.mp ((List.mem_insertionSort _).mp hk)).1)
  · exact (mem_uniqFirst values k).mp (List.mem_filter.mp hk).1

theorem jsCountByPairs_cover (values : List String) (v : String) (hv : v ∈ values) :
    (v, values.count v) ∈ jsCountByPairs values := by
  unfold jsCountByPairs
  dsimp only
  simp only [List.mem_map]
  refine ⟨v, ?_, rfl⟩
  have hkv : v ∈ uniqFirst values := (mem_uniqFirst values v).mpr hv
  by_cases hidx : isArrayIndexKey v
  · exact List.mem_append.mpr (Or.inl
      ((List.mem_insertionSort _).mpr (List.mem_filter.mpr ⟨hkv, hidx⟩)))
  · exact List.mem_append.mpr (Or.inr (List.mem_filter.mpr ⟨hkv, by simp [hidx]⟩))

theorem detectDataType_ne_nil (H : Host) (vals : List String)
    (h : detectDataType H vals = PatternKey.categorical) : vals ≠ [] := by
  intro hnil
  subst hnil
  simp [detectDataType] at h

theorem imputeFill_categorical_spec (H : Host) (col : List String) (m : String)
    (hcat : detectDataType H (trimNonempty col) = PatternKey.categorical)
    (h : imputeFill H col = some m) :
    m ∈ trimNonempty col ∧ ∀ v ∈ trimNonempty col,
      (trimNonempty col).count v ≤ (trimNonempty col).count m := by
  unfold imputeFill at h
  rw [hcat] at h
  simp only [Option.map_eq_some'] at h
  obtain ⟨p, hp, rfl⟩ := h
  obtain ⟨hmem, hmax⟩ := jsMaxBySnd_spec _ p hp
  obtain ⟨hpv, hpc⟩ := jsCountByPairs_mem _ p hmem
  refine ⟨hpv, fun v hv => ?_⟩
  have := hmax _ (jsCountByPairs_cover _ v hv)
  simpa [← hpc] using this

theorem imputeFill_categorical_isSome (H : Host) (col : List String)
    (hcat : detectDataType H (trimNonempty col) = PatternKey.categorical) :
    (imputeFill H col).isSome := by
  unfold imputeFill
  rw [hcat]
  obtain ⟨v, hv⟩ := List.exists_mem_of_ne_nil _ (detectDataType_ne_nil H _ hcat)
  have hcov := jsCountByPairs_cover _ v hv
  cases hps : jsCountByPairs (trimNonempty col) with
  | nil => rw [hps] at hcov; simp at hcov
  | cons a ps =>
    cases hmb : jsMaxBySnd (a :: ps) with
    | none => exact absurd hmb (jsMaxBySnd_ne_none a ps)
    | some p => rfl

theorem getD_map_lt (f : String → String) (l : List String) (i : ℕ) (hi : i < l.length) :
    (l.map f).getD i "" = f (l.getD i "") := by
  rw [List.getD_eq_getElem?_getD, List.getD_eq_getElem?_getD, List.getElem?_map,
    List.getElem?_eq_getElem hi]
  rfl

/-- C10 counterexample: for the column with values "", "b", "2", "b", "2"
(re-inferred categorical; "b" and "2" tie at two occurrences each, "b"
encountered first), the missing cell is imputed with "2", not "b": lodash
`countBy` stores counts in a plain object, whose enumeration puts the
array-index-like key "2" before the insertion-ordered key "b", and `maxBy`
keeps the first maximum it meets. -/
theorem c10_counterexample :
    detectDataType host0 (trimNonempty ["", "b", "2", "b", "2"]) = PatternKey.categorical ∧
    firstMostFrequent (trimNonempty ["", "b", "2", "b", "2"]) = some "b" ∧
    imputeFill host0 ["", "b", "2", "b", "2"] = some "2" ∧
    imputeColVals host0 ["", "b", "2", "b", "2"] = ["2", "b", "2", "b", "2"] ∧
    ("2" : String) ≠ "b" := by
  refine ⟨by decide, by decide, by decide, by decide, by decide⟩

/-- C10 amended: the imputation step leaves non-missing cells unchanged; when
the re-inferred type is numeric it fills each missing cell with the median
string of the sorted parsed values, when it is categorical it fills with a
value of maximal frequency among the trim-nonempty current values — with
ties broken by the countBy object enumeration order (canonical array-index
strings ascending first, then first-encounter order), not plain
first-encounter order — and date or unknown columns are not imputed. -/
theorem c10_theorem (H : Host) (col : List String) (i : ℕ)
    (hm : isMissing (col.getD i "") = true) (hi : i < col.length) :
    (∀ k, isMissing (col.getD k "") = false →
      (imputeColVals H col).getD k "" = col.getD k "") ∧
    (match detectDataType H (trimNonempty col) with
     | PatternKey.numeric =>
        (imputeColVals H col).getD i "" =
          qToString (jsMedian ((col.filterMap jsParseFloat).insertionSort (fun a b => a ≤ b)))
     | PatternKey.categorical =>
        ∃ m, imputeFill H col = some m ∧ (imputeColVals H col).getD i "" = m ∧
          m ∈ trimNonempty col ∧ ∀ v ∈ trimNonempty col,
            (trimNonempty col).count v ≤ (trimNonempty col).count m
     | _ => (imputeColVals H col).getD i "" = col.getD i "") := by
  have hpres : ∀ k, isMissing (col.getD k "") = false →
      (imputeColVals H col).getD k "" = col.getD k "" := by
    intro k hk
    unfold imputeColVals
    cases himp : imputeFill H col with
    | none => rfl
    | some m =>
      by_cases hklen : k < col.length
      · rw [getD_map_lt _ _ _ hklen, hk]
        simp
      · have hout : col.getD k "" = "" := by
          rw [List.getD_eq_getElem?_getD, List.getElem?_eq_none (le_of_not_lt hklen)]
          rfl
        have hout2 : (col.map (fun s => if isMissing s then m else s)).getD k "" = "" := by
          rw [List.getD_eq_getElem?_getD, List.getElem?_eq_none]
          · rfl
          · rw [List.length_map]; exact le_of_not_lt hklen
        rw [hout, hout2]
  refine ⟨hpres, ?_⟩
  cases hdt : detectDataType H (trimNonempty col) with
  | numeric =>
    dsimp only
    have himp : imputeFill H col =
        some (qToString (jsMedian ((col.filterMap jsParseFloat).insertionSort
          (fun a b => a ≤ b)))) := by
      unfold imputeFill
      rw [hdt]
    unfold imputeColVals
    rw [himp, getD_map_lt _ _ _ hi, hm]
    simp
  | categorical =>
    dsimp only
    have hsome := imputeFill_categorical_isSome H col hdt
    obtain ⟨m, hmeq⟩ := Option.isSome_iff_exists.mp hsome
    obtain ⟨hmem, hmax⟩ := imputeFill_categorical_spec H col m hdt hmeq
    refine ⟨m, hmeq, ?_, hmem, hmax⟩
    unfold imputeColVals
    rw [hmeq, getD_map_lt _ _ _ hi, hm]
    simp
  | date =>
    dsimp only
    unfold imputeColVals
    have himp : imputeFill H col = none := by
      unfold imputeFill
      rw [hdt]
    rw [himp]
  | unknown =>
    dsimp only
    unfold imputeColVals
    have himp : imputeFill H col = none := by
      unfold imputeFill
      rw [hdt]
    rw [himp]
  | mixed =>
    dsimp only
    unfold imputeColVals
    have himp : imputeFill H col = none := by
      unfold imputeFill
      rw [hdt]
    rw [himp]
  | email =>
    dsimp only
    unfold imputeColVals
    have himp : imputeFill H col = none := by
      unfold imputeFill
      rw [hdt]
    rw [himp]
  | phone =>
    dsimp only
    unfold imputeColVals
    have himp : imputeFill H col = none := by
      unfold imputeFill
      rw [hdt]
    rw [himp]
  | url =>
    dsimp only
    unfold imputeColVals
    have himp : imputeFill H col = none := by
      unfold imputeFill
      rw [hdt]
    rw [himp]

theorem c10_witness :
    isMissing ((["", "b", "2", "b", "2"] : List String).getD 0 "") = true ∧
    0 < (["", "b", "2", "b", "2"] : List String).length ∧
    isMissing ((["", "b", "2", "b", "2"] : List String).getD 1 "") = false ∧
    (imputeColVals host0 ["", "b", "2", "b", "2"]).getD 1 "" =
      (["", "b", "2", "b", "2"] : List String).getD 1 "" ∧
    (match detectDataType host0 (trimNonempty ["", "b", "2", "b", "2"]) with
     | PatternKey.numeric =>
        (imputeColVals host0 ["", "b", "2", "b", "2"]).getD 0 "" =
          qToString (jsMedian (((["", "b", "2", "b", "2"] : List String).filterMap
            jsParseFloat).insertionSort (fun a b => a ≤ b)))
     | PatternKey.categorical =>
        ∃ m, imputeFill host0 ["", "b", "2", "b", "2"] = some m ∧
          (imputeColVals host0 ["", "b", "2", "b", "2"]).getD 0 "" = m ∧
          m ∈ trimNonempty ["", "b", "2", "b", "2"] ∧
          ∀ v ∈ trimNonempty ["", "b", "2", "b", "2"],
            (trimNonempty ["", "b", "2", "b", "2"]).count v ≤
              (trimNonempty ["", "b", "2", "b", "2"]).count m
     | _ => (imputeColVals host0 ["", "b", "2", "b", "2"]).getD 0 "" =
        (["", "b", "2", "b", "2"] : List String).getD 0 "") :=
  ⟨by decide, by decide, by decide,
   (c10_theorem host0 ["", "b", "2", "b", "2"] 0 (by decide) (by decide)).1 1 (by decide),
   (c10_theorem host0 ["", "b", "2", "b", "2"] 0 (by decide) (by decide)).2⟩
